import Mathlib

/-!
# Message validity and dialect negotiation of the cifsd server

A shallow embedding of `smb1misc.c` and `smb_common.c`.

* C `int` values are `Int`; the places where the 32-bit width matters
  (the assembly of the write data length, the unsigned return value of
  `smb1_calc_size`, the comparison of an `int` with a `__u32`) go through
  `int32` and `to_u32`.
* The request buffer is seen through the fields the code reads from it.
* Memory reached through a `char *` is the list of the bytes readable from
  the pointer on; a read beyond them ends the computation without a result
  (`none`, `fault`).
* The macros, `sizeof` values and structure layouts that come from headers
  which are not part of the two source files are collected in `Env`; the
  theorems hold for every `Env` that meets the stated side conditions, and
  `cifsd_env` instantiates it for evaluation.
-/

namespace Ksmbd

/-! ## Machine integers -/

/-- Value of a C `int` after conversion to `unsigned int` / `__u32`. -/
def to_u32 (x : Int) : Nat := (x % 4294967296).toNat

/-- Wrap-around of a mathematical integer into the range of a 32-bit C `int`
(the kernel is built with wrapping signed arithmetic). -/
def int32 (x : Int) : Int :=
  let m := x % 4294967296
  if m < 2147483648 then m else m - 4294967296

/-- The operator `a | b` on two C `int` values, on their 32-bit patterns. -/
def int_or (a b : Int) : Int := int32 ((to_u32 a ||| to_u32 b : Nat) : Int)

/-- The operator `a << n` on a C `int`. -/
def int_shl (a : Int) (n : Nat) : Int := int32 (a * (2 : Int) ^ n)

/-- Modelled from the spec: the byte-order conversion utility `le16_to_cpu`
(a little-endian 16-bit read). The fields of the request record already hold
the values in wire order read on a little-endian host, where the conversion
is the identity. -/
def le16_to_cpu (x : Nat) : Nat := x

/-! ## Header constants -/

/-- The `case` labels of the two `switch` statements of `smb1misc.c`. -/
inductive Command where
  | SMB_COM_CREATE_DIRECTORY
  | SMB_COM_DELETE_DIRECTORY
  | SMB_COM_QUERY_INFORMATION
  | SMB_COM_TREE_DISCONNECT
  | SMB_COM_NEGOTIATE
  | SMB_COM_NT_CANCEL
  | SMB_COM_CHECK_DIRECTORY
  | SMB_COM_PROCESS_EXIT
  | SMB_COM_FLUSH
  | SMB_COM_DELETE
  | SMB_COM_RENAME
  | SMB_COM_ECHO
  | SMB_COM_FIND_CLOSE2
  | SMB_COM_LOGOFF_ANDX
  | SMB_COM_CLOSE
  | SMB_COM_TREE_CONNECT_ANDX
  | SMB_COM_NT_RENAME
  | SMB_COM_WRITE
  | SMB_COM_SETATTR
  | SMB_COM_LOCKING_ANDX
  | SMB_COM_TRANSACTION
  | SMB_COM_SESSION_SETUP_ANDX
  | SMB_COM_OPEN_ANDX
  | SMB_COM_TRANSACTION2
  | SMB_COM_NT_CREATE_ANDX
  | SMB_COM_READ_ANDX
  | SMB_COM_WRITE_ANDX
  deriving DecidableEq, Repr

/-- All 27 labels, in the order of the `switch` of `smb1_req_struct_size`. -/
def Command.all : List Command :=
  [.SMB_COM_CREATE_DIRECTORY, .SMB_COM_DELETE_DIRECTORY, .SMB_COM_QUERY_INFORMATION,
   .SMB_COM_TREE_DISCONNECT, .SMB_COM_NEGOTIATE, .SMB_COM_NT_CANCEL,
   .SMB_COM_CHECK_DIRECTORY, .SMB_COM_PROCESS_EXIT, .SMB_COM_FLUSH, .SMB_COM_DELETE,
   .SMB_COM_RENAME, .SMB_COM_ECHO, .SMB_COM_FIND_CLOSE2, .SMB_COM_LOGOFF_ANDX,
   .SMB_COM_CLOSE, .SMB_COM_TREE_CONNECT_ANDX, .SMB_COM_NT_RENAME, .SMB_COM_WRITE,
   .SMB_COM_SETATTR, .SMB_COM_LOCKING_ANDX, .SMB_COM_TRANSACTION,
   .SMB_COM_SESSION_SETUP_ANDX, .SMB_COM_OPEN_ANDX, .SMB_COM_TRANSACTION2,
   .SMB_COM_NT_CREATE_ANDX, .SMB_COM_READ_ANDX, .SMB_COM_WRITE_ANDX]

/-- What the two source files take from headers that are not among them
(`glob.h`, `smb1pdu.h`, `smb_common.h`, `server.h`, the errno values) and
from the build configuration. Every field is a parameter of the embedding. -/
structure Env where
  /-- errno value `EINVAL` -/
  EINVAL : Nat
  /-- errno value `EOPNOTSUPP` -/
  EOPNOTSUPP : Nat
  /-- the value of `sizeof(struct smb_hdr)` -/
  sizeof_smb_hdr : Nat
  /-- the legacy signature, as the `__le32` the code compares with -/
  SMB1_PROTO_NUMBER : Nat
  /-- the modern signature -/
  SMB2_PROTO_NUMBER : Nat
  /-- mask of the response bit in `Flags` -/
  SMBFLG_RESPONSE : Nat
  /-- mask of the Unicode bit in `Flags2` -/
  SMBFLG2_UNICODE : Nat
  /-- the value of each `SMB_COM_*` macro -/
  code : Command → Nat
  /-- RFC 1002 record types -/
  RFC1002_SESSION_MESSAGE : Int
  RFC1002_SESSION_KEEP_ALIVE : Int
  /-- descriptor indices -/
  CIFSD_SMB1_PROT : Int
  CIFSD_SMB2_PROT : Int
  CIFSD_SMB21_PROT : Int
  CIFSD_SMB2X_PROT : Int
  CIFSD_SMB30_PROT : Int
  CIFSD_SMB302_PROT : Int
  CIFSD_SMB311_PROT : Int
  /-- negotiation ids, each a `__u16` -/
  CIFSD_SMB10_PROT_ID : Nat
  CIFSD_SMB20_PROT_ID : Nat
  CIFSD_SMB21_PROT_ID : Nat
  CIFSD_SMB2X_PROT_ID : Nat
  CIFSD_SMB30_PROT_ID : Nat
  CIFSD_SMB302_PROT_ID : Nat
  CIFSD_SMB311_PROT_ID : Nat
  CIFSD_BAD_PROT_ID : Int
  /-- whether `CONFIG_CIFS_SMB1_SERVER` is defined -/
  CONFIG_CIFS_SMB1_SERVER : Bool

/-- The label a `switch` on the value `v` jumps to, `none` when no `case`
constant equals `v` (the `default` label, or past the end of the switch). -/
def Env.label (K : Env) (v : Nat) : Option Command :=
  Command.all.find? (fun c => K.code c == v)

/-- Side conditions on the header constants: the `case` constants of a
`switch` are pairwise different, errno values lie in `1..4095`, and
`struct smb_hdr` holds at least its 4-byte `Protocol` field and is less
than 64 KiB long. -/
structure Env.WF (K : Env) : Prop where
  code_inj : Function.Injective K.code
  EINVAL_pos : 0 < K.EINVAL
  EINVAL_le : K.EINVAL ≤ 4095
  EOPNOTSUPP_pos : 0 < K.EOPNOTSUPP
  EOPNOTSUPP_le : K.EOPNOTSUPP ≤ 4095
  hdr_ge : 4 ≤ K.sizeof_smb_hdr
  hdr_lt : K.sizeof_smb_hdr < 65536

/-! ## The legacy request -/

/-- The request buffer as `smb1misc.c` reads it: the fields of
`struct smb_hdr` that are consulted, the 16-bit little-endian loads at a byte
offset from the start of the header, and the fields of the overlays
`WRITE_REQ`, `TRANS_REQ` and `struct smb_trans2_req`, which lie in the
parameter block. -/
structure smb_hdr where
  /-- the four bytes `Protocol`, read as one `__le32` -/
  Protocol : Nat
  /-- `__u8 Command` -/
  Command : Nat
  /-- `__u8 Flags` -/
  Flags : Nat
  /-- `__le16 Flags2` -/
  Flags2 : Nat
  /-- `__u8 WordCount` -/
  WordCount : Nat
  /-- the `__le16` stored at a byte offset from the start of the header -/
  le16_at : Nat → Nat
  /-- `WRITE_REQ` view -/
  DataLengthLow : Nat
  DataLengthHigh : Nat
  DataOffset : Nat
  /-- `TRANS_REQ` view -/
  trans_DataOffset : Nat
  trans_DataCount : Nat
  /-- `struct smb_trans2_req` view -/
  trans2_DataOffset : Nat
  trans2_DataCount : Nat

/-- Every field lies in the range of its C type. -/
structure smb_hdr.InRange (h : smb_hdr) : Prop where
  Protocol : h.Protocol < 4294967296
  Command : h.Command < 256
  Flags : h.Flags < 256
  Flags2 : h.Flags2 < 65536
  WordCount : h.WordCount < 256
  le16_at : ∀ off, h.le16_at off < 65536
  DataLengthLow : h.DataLengthLow < 65536
  DataLengthHigh : h.DataLengthHigh < 65536
  DataOffset : h.DataOffset < 65536
  trans_DataOffset : h.trans_DataOffset < 65536
  trans_DataCount : h.trans_DataCount < 65536
  trans2_DataOffset : h.trans2_DataOffset < 65536
  trans2_DataCount : h.trans2_DataCount < 65536

/-- The part of `struct cifsd_work` the checker uses: the request buffer and
the envelope length `get_rfc1002_length(buf)`, a `__u32`. -/
structure cifsd_work where
  request_buf : smb_hdr
  rfc1002_length : Nat

/-! ## smb1misc.c -/

/-- `check_smb1_hdr`: 0 on success, otherwise 1. -/
def check_smb1_hdr (K : Env) (smb : smb_hdr) : Int :=
  if smb.Protocol ≠ K.SMB1_PROTO_NUMBER then 1
  else if smb.Flags &&& K.SMBFLG_RESPONSE = 0 then 0
  else 1

/-- `smb1_req_struct_size`. -/
def smb1_req_struct_size (K : Env) (hdr : smb_hdr) : Int :=
  let wc : Int := hdr.WordCount
  match K.label (le16_to_cpu hdr.Command) with
  | some .SMB_COM_CREATE_DIRECTORY
  | some .SMB_COM_DELETE_DIRECTORY
  | some .SMB_COM_QUERY_INFORMATION
  | some .SMB_COM_TREE_DISCONNECT
  | some .SMB_COM_NEGOTIATE
  | some .SMB_COM_NT_CANCEL
  | some .SMB_COM_CHECK_DIRECTORY
  | some .SMB_COM_PROCESS_EXIT =>
    if wc ≠ 0x0 then -(K.EINVAL : Int) else wc
  | some .SMB_COM_FLUSH
  | some .SMB_COM_DELETE
  | some .SMB_COM_RENAME
  | some .SMB_COM_ECHO
  | some .SMB_COM_FIND_CLOSE2 =>
    if wc ≠ 0x1 then -(K.EINVAL : Int) else wc
  | some .SMB_COM_LOGOFF_ANDX =>
    if wc ≠ 0x2 then -(K.EINVAL : Int) else wc
  | some .SMB_COM_CLOSE =>
    if wc ≠ 0x3 then -(K.EINVAL : Int) else wc
  | some .SMB_COM_TREE_CONNECT_ANDX
  | some .SMB_COM_NT_RENAME =>
    if wc ≠ 0x4 then -(K.EINVAL : Int) else wc
  | some .SMB_COM_WRITE =>
    if wc ≠ 0x5 then -(K.EINVAL : Int) else wc
  | some .SMB_COM_SETATTR
  | some .SMB_COM_LOCKING_ANDX =>
    if wc ≠ 0x8 then -(K.EINVAL : Int) else wc
  | some .SMB_COM_TRANSACTION =>
    if wc < 0xe then -(K.EINVAL : Int) else wc
  | some .SMB_COM_SESSION_SETUP_ANDX =>
    if wc ≠ 0xc then -(K.EINVAL : Int) else wc
  | some .SMB_COM_OPEN_ANDX
  | some .SMB_COM_TRANSACTION2 =>
    if wc ≠ 0xf then -(K.EINVAL : Int) else wc
  | some .SMB_COM_NT_CREATE_ANDX =>
    if wc ≠ 0x18 then -(K.EINVAL : Int) else wc
  | some .SMB_COM_READ_ANDX =>
    if wc ≠ 0xa ∧ wc ≠ 0xc then -(K.EINVAL : Int) else wc
  | some .SMB_COM_WRITE_ANDX =>
    if wc ≠ 0xc ∧ wc ≠ 0xe then -(K.EINVAL : Int) else wc
  | none => -(K.EOPNOTSUPP : Int)

/-- `smb1_get_byte_count`. -/
def smb1_get_byte_count (K : Env) (hdr : smb_hdr) : Int :=
  let bc : Int := le16_to_cpu (hdr.le16_at (K.sizeof_smb_hdr + hdr.WordCount * 2))
  match K.label (le16_to_cpu hdr.Command) with
  | some .SMB_COM_CLOSE
  | some .SMB_COM_FLUSH
  | some .SMB_COM_READ_ANDX
  | some .SMB_COM_TREE_DISCONNECT
  | some .SMB_COM_LOGOFF_ANDX
  | some .SMB_COM_NT_CANCEL
  | some .SMB_COM_PROCESS_EXIT
  | some .SMB_COM_FIND_CLOSE2 =>
    if bc ≠ 0x0 then -(K.EINVAL : Int) else bc
  | some .SMB_COM_LOCKING_ANDX
  | some .SMB_COM_TRANSACTION
  | some .SMB_COM_TRANSACTION2
  | some .SMB_COM_ECHO
  | some .SMB_COM_SESSION_SETUP_ANDX =>
    if bc < 0x0 then -(K.EINVAL : Int) else bc
  | some .SMB_COM_WRITE_ANDX =>
    if bc < 0x1 then -(K.EINVAL : Int) else bc
  | some .SMB_COM_CREATE_DIRECTORY
  | some .SMB_COM_DELETE_DIRECTORY
  | some .SMB_COM_DELETE
  | some .SMB_COM_RENAME
  | some .SMB_COM_QUERY_INFORMATION
  | some .SMB_COM_SETATTR
  | some .SMB_COM_OPEN_ANDX
  | some .SMB_COM_NEGOTIATE
  | some .SMB_COM_CHECK_DIRECTORY =>
    if bc < 0x2 then -(K.EINVAL : Int) else bc
  | some .SMB_COM_TREE_CONNECT_ANDX
  | some .SMB_COM_WRITE =>
    if bc < 0x3 then -(K.EINVAL : Int) else bc
  | some .SMB_COM_NT_RENAME =>
    if bc < 0x4 then -(K.EINVAL : Int) else bc
  | some .SMB_COM_NT_CREATE_ANDX =>
    if hdr.Flags2 &&& K.SMBFLG2_UNICODE ≠ 0 then
      if bc < 3 then -(K.EINVAL : Int) else bc
    else if bc < 2 then -(K.EINVAL : Int)
    else bc
  | none => bc

/-- `smb1_calc_size`, with its `unsigned int` return value. -/
def smb1_calc_size (K : Env) (hdr : smb_hdr) : Nat :=
  let len : Int := int32 ((K.sizeof_smb_hdr : Int) - 4 + 2)
  let struct_size : Int := (hdr.WordCount : Int) * 2
  let len : Int := int32 (len + struct_size)
  let bc := smb1_get_byte_count K hdr
  if bc < 0 then to_u32 bc
  else
    let len : Int := int32 (len + bc)
    to_u32 len

/-- `smb1_get_data_len`. -/
def smb1_get_data_len (K : Env) (hdr : smb_hdr) : Int :=
  let data_len : Int := 0
  match K.label (le16_to_cpu hdr.Command) with
  | some .SMB_COM_WRITE_ANDX =>
    let data_len : Int := le16_to_cpu hdr.DataLengthLow
    let data_len := int_or data_len (int_shl (le16_to_cpu hdr.DataLengthHigh) 16)
    let data_len := int32 (data_len + (le16_to_cpu hdr.DataOffset : Int))
    data_len
  | some .SMB_COM_TRANSACTION =>
    int32 ((le16_to_cpu hdr.trans_DataOffset : Int) + (le16_to_cpu hdr.trans_DataCount : Int))
  | some .SMB_COM_TRANSACTION2 =>
    int32 ((le16_to_cpu hdr.trans2_DataOffset : Int) + (le16_to_cpu hdr.trans2_DataCount : Int))
  | _ => data_len

/-- `smb1_check_message`: 0 accepts the request, 1 rejects it. -/
def smb1_check_message (K : Env) (work : cifsd_work) : Int :=
  let hdr := work.request_buf
  let command : Int := hdr.Command
  let len : Nat := work.rfc1002_length
  if check_smb1_hdr K hdr ≠ 0 then 1
  else
    let wc := smb1_req_struct_size K hdr
    if wc = -(K.EOPNOTSUPP : Int) then 1
    else if (hdr.WordCount : Int) ≠ wc then 1
    else
      let data_len := smb1_get_data_len K hdr
      if len < to_u32 data_len then 1
      else
        let clc_len := smb1_calc_size K hdr
        if len ≠ clc_len then
          if command = (K.code .SMB_COM_WRITE_ANDX : Int) then 0
          else 1
        else 0

/-! ## smb_common.c: the modern dialect table and its negotiator -/

/-- `struct smb_protocol`. -/
structure smb_protocol where
  index : Int
  name : String
  prot : String
  prot_id : Nat

/-- The table `smb2_protos`, oldest entry first. -/
def smb2_protos (K : Env) : List smb_protocol :=
  [ { index := K.CIFSD_SMB2_PROT, name := "\x02SMB 2.002", prot := "SMB2_02",
      prot_id := K.CIFSD_SMB20_PROT_ID },
    { index := K.CIFSD_SMB21_PROT, name := "\x02SMB 2.1", prot := "SMB2_10",
      prot_id := K.CIFSD_SMB21_PROT_ID },
    { index := K.CIFSD_SMB2X_PROT, name := "\x02SMB 2.???", prot := "SMB2_22",
      prot_id := K.CIFSD_SMB2X_PROT_ID },
    { index := K.CIFSD_SMB30_PROT, name := "\x02SMB 3.0", prot := "SMB3_00",
      prot_id := K.CIFSD_SMB30_PROT_ID },
    { index := K.CIFSD_SMB302_PROT, name := "\x02SMB 3.02", prot := "SMB3_02",
      prot_id := K.CIFSD_SMB302_PROT_ID },
    { index := K.CIFSD_SMB311_PROT, name := "\x02SMB 3.1.1", prot := "SMB3_11",
      prot_id := K.CIFSD_SMB311_PROT_ID } ]

/-- The two fields of the global `server_conf` that negotiation reads. -/
structure server_conf where
  min_protocol : Int
  max_protocol : Int

/-- `supported_protocol`. -/
def supported_protocol (conf : server_conf) (idx : Int) : Bool :=
  decide (conf.min_protocol ≤ idx ∧ idx ≤ conf.max_protocol)

/-- The inner loop `while (--count >= 0)` of `cifsd_lookup_smb2_dialect` for
the table entry `p` at table position `i`; the argument is the value of
`count` before the decrement, the result is the value returned from inside
the loop, or `none` when the loop runs out. -/
def smb2_dialect_scan (conf : server_conf) (cli_dialects : Nat → Nat)
    (p : smb_protocol) (i : Nat) : Nat → Option Int
  | 0 => none
  | count + 1 =>
    if le16_to_cpu (cli_dialects count) ≠ p.prot_id then
      smb2_dialect_scan conf cli_dialects p i count
    else if supported_protocol conf i then some p.prot_id
    else smb2_dialect_scan conf cli_dialects p i count

/-- The outer loop `for (i = ...; i >= 0; i--)` of
`cifsd_lookup_smb2_dialect`; the argument is `i + 1`. -/
def smb2_dialect_loop (K : Env) (conf : server_conf) (cli_dialects : Nat → Nat)
    (dialects_count : Nat) : Nat → Int
  | 0 => K.CIFSD_BAD_PROT_ID
  | i + 1 =>
    match (smb2_protos K)[i]? with
    | none => smb2_dialect_loop K conf cli_dialects dialects_count i
    | some p =>
      match smb2_dialect_scan conf cli_dialects p i (le16_to_cpu dialects_count) with
      | some r => r
      | none => smb2_dialect_loop K conf cli_dialects dialects_count i

/-- `cifsd_lookup_smb2_dialect`: `cli_dialects` is the array the pointer
refers to, `dialects_count` the number of ids the client announced. -/
def cifsd_lookup_smb2_dialect (K : Env) (conf : server_conf)
    (cli_dialects : Nat → Nat) (dialects_count : Nat) : Int :=
  smb2_dialect_loop K conf cli_dialects dialects_count (smb2_protos K).length

/-! ## smb_common.c: C strings, the legacy table, lookup by name -/

/-- The C library function `strlen` on the bytes that are readable from a
pointer on: the number of bytes before the first NUL, `none` when the
readable memory holds no NUL (the scan leaves it). -/
def strlen : List Nat → Option Nat
  | [] => none
  | c :: s => if c = 0 then some 0 else (strlen s).map (· + 1)

/-- The C library function `strncmp` on the bytes readable from two pointers:
at most `n` characters are compared, and the comparison stops after a NUL. The
result is zero exactly when no difference was found. -/
def strncmp : List Nat → List Nat → Nat → Int
  | _, _, 0 => 0
  | s1, s2, n + 1 =>
    let c1 := s1.headD 0
    let c2 := s2.headD 0
    if c1 ≠ c2 then (c1 : Int) - (c2 : Int)
    else if c1 = 0 then 0
    else strncmp s1.tail s2.tail n

/-- The character array of a C string literal: its characters and the
terminating NUL. -/
def c_string (s : String) : List Nat := s.toList.map Char.toNat ++ [0]

/-- The table `smb1_protos` under either setting of
`CONFIG_CIFS_SMB1_SERVER`; the placeholder id `-1` is stored in a `__u16`. -/
def smb1_protos (K : Env) : List smb_protocol :=
  if K.CONFIG_CIFS_SMB1_SERVER then
    [ { index := K.CIFSD_SMB1_PROT, name := "\x02NT LM 0.12", prot := "NT1",
        prot_id := K.CIFSD_SMB10_PROT_ID } ]
  else
    [ { index := K.CIFSD_SMB1_PROT, name := "", prot := "", prot_id := 65535 } ]

/-- The loop `while (offt >= 0)` of `__lookup_proto_idx`, for a string of
length `len`; the argument is `offt + 1`. -/
def lookup_proto_idx_loop (str : List Nat) (list : List smb_protocol) (len : Nat) :
    Nat → Int
  | 0 => -1
  | offt + 1 =>
    match list[offt]? with
    | none => lookup_proto_idx_loop str list len offt
    | some p =>
      if strncmp str (c_string p.prot) len = 0 then p.index
      else lookup_proto_idx_loop str list len offt

/-- `__lookup_proto_idx`: `str` is the memory readable from the pointer on;
the result is `none` when `strlen` finds no terminator there. -/
def __lookup_proto_idx (str : List Nat) (list : List smb_protocol) (offt : Int) :
    Option Int :=
  match strlen str with
  | none => none
  | some len => some (lookup_proto_idx_loop str list len (offt + 1).toNat)

/-- `get_protocol_idx`. -/
def get_protocol_idx (K : Env) (str : List Nat) : Option Int :=
  match __lookup_proto_idx str (smb2_protos K) ((smb2_protos K).length - 1 : Nat) with
  | none => none
  | some idx =>
    if idx ≠ -(K.EINVAL : Int) then some idx
    else __lookup_proto_idx str (smb1_protos K) ((smb1_protos K).length - 1 : Nat)

/-! ## smb_common.c: dispatch and frame classification -/

/-- `check_message`; the modern checker `smb2_check_message` is external and
taken as an argument. `ProtocolId` of `struct smb2_hdr` occupies the bytes of
`Protocol`. -/
def check_message (K : Env) (smb2_check_message : cifsd_work → Int)
    (work : cifsd_work) : Int :=
  if work.request_buf.Protocol = K.SMB2_PROTO_NUMBER then smb2_check_message work
  else smb1_check_message K work

/-- The conversion of the byte `b` read through a `char` that is signed, to
`int`. -/
def char_to_int (b : Nat) : Int :=
  if b % 256 < 128 then ((b % 256 : Nat) : Int) else ((b % 256 : Nat) : Int) - 256

/-- `is_smb_request`, on the first byte of `conn->request_buf`. -/
def is_smb_request (K : Env) (first_byte : Nat) : Bool :=
  let type : Int := char_to_int first_byte
  if type = K.RFC1002_SESSION_MESSAGE then true
  else if type = K.RFC1002_SESSION_KEEP_ALIVE then false
  else false

/-! ## smb_common.c: the legacy negotiator -/

/-- The variables of the loop `while (bcount)` of
`cifsd_lookup_smb1_dialect`; `dialects` is kept as its offset from
`cli_dialects`. -/
structure smb1_scan_state where
  bcount : Int
  dialects : Nat
  smb1_index : Int
  deriving DecidableEq, Repr

/-- What one pass through the body of the loop does. -/
inductive smb1_scan_step where
  /-- the body ran to its end, with the new values of the variables -/
  | next (s : smb1_scan_state)
  /-- a `return` statement was reached -/
  | returned (v : Int)
  /-- `strlen` ran past the readable memory -/
  | fault
  deriving DecidableEq, Repr

/-- The body of the loop `while (bcount)` for the table entry `p` at table
position `i`; `cli_dialects` is the memory readable from the pointer on. -/
def smb1_dialect_step (K : Env) (conf : server_conf) (cli_dialects : List Nat)
    (p : smb_protocol) (i : Nat) (s : smb1_scan_state) : smb1_scan_step :=
  match strlen (cli_dialects.drop s.dialects) with
  | none => .fault
  | some n =>
    let cli_count : Int := int32 n
    if strncmp (cli_dialects.drop s.dialects) (c_string p.name) n = 0 ∧
        supported_protocol conf i = true then
      if (i : Int) = K.CIFSD_SMB1_PROT then .returned s.smb1_index
      else .returned p.prot_id
    else
      let cli_count := int32 (cli_count + 1)
      .next { bcount := int32 (s.bcount - cli_count),
              dialects := s.dialects + (n + 1),
              smb1_index := int32 (s.smb1_index + 1) }

/-- How the loop `while (bcount)` ends. -/
inductive smb1_scan_end where
  /-- a `return` statement was reached -/
  | returned (v : Int)
  /-- `bcount` became zero -/
  | finished
  /-- `strlen` ran past the readable memory -/
  | fault
  /-- the bound on the number of passes was used up -/
  | out_of_fuel
  deriving DecidableEq, Repr

/-- The loop `while (bcount)`, for at most `fuel` passes. -/
def smb1_dialect_scan (K : Env) (conf : server_conf) (cli_dialects : List Nat)
    (p : smb_protocol) (i : Nat) : Nat → smb1_scan_state → smb1_scan_end
  | 0, _ => .out_of_fuel
  | fuel + 1, s =>
    if s.bcount = 0 then .finished
    else
      match smb1_dialect_step K conf cli_dialects p i s with
      | .returned v => .returned v
      | .fault => .fault
      | .next s1 => smb1_dialect_scan K conf cli_dialects p i fuel s1

/-- The loop `for (i = ARRAY_SIZE(smb1_protos) - 1; i >= 0; i--)`; the
argument is `i + 1`. Every pass of the inner loop moves `dialects` forward by
at least one byte and faults beyond the readable memory, so
`cli_dialects.length + 2` passes are never used up. -/
def smb1_dialect_loop (K : Env) (conf : server_conf) (cli_dialects : List Nat)
    (byte_count : Nat) : Nat → Option Int
  | 0 => some K.CIFSD_BAD_PROT_ID
  | i + 1 =>
    match (smb1_protos K)[i]? with
    | none => smb1_dialect_loop K conf cli_dialects byte_count i
    | some p =>
      match smb1_dialect_scan K conf cli_dialects p i (cli_dialects.length + 2)
          { bcount := le16_to_cpu byte_count, dialects := 0, smb1_index := 0 } with
      | .returned v => some v
      | .finished => smb1_dialect_loop K conf cli_dialects byte_count i
      | .fault => none
      | .out_of_fuel => none

/-- `cifsd_lookup_smb1_dialect`, in both settings of
`CONFIG_CIFS_SMB1_SERVER`; `none` stands for a read outside the readable
memory. -/
def cifsd_lookup_smb1_dialect (K : Env) (conf : server_conf)
    (cli_dialects : List Nat) (byte_count : Nat) : Option Int :=
  if K.CONFIG_CIFS_SMB1_SERVER then
    smb1_dialect_loop K conf cli_dialects byte_count (smb1_protos K).length
  else some K.CIFSD_BAD_PROT_ID

/-- The `case` labels of the `switch` of `smb1_get_byte_count`, in its
order. -/
def get_byte_count_cases : List Command :=
  [.SMB_COM_CLOSE, .SMB_COM_FLUSH, .SMB_COM_READ_ANDX, .SMB_COM_TREE_DISCONNECT,
   .SMB_COM_LOGOFF_ANDX, .SMB_COM_NT_CANCEL, .SMB_COM_PROCESS_EXIT, .SMB_COM_FIND_CLOSE2,
   .SMB_COM_LOCKING_ANDX, .SMB_COM_TRANSACTION, .SMB_COM_TRANSACTION2, .SMB_COM_ECHO,
   .SMB_COM_SESSION_SETUP_ANDX, .SMB_COM_WRITE_ANDX, .SMB_COM_CREATE_DIRECTORY,
   .SMB_COM_DELETE_DIRECTORY, .SMB_COM_DELETE, .SMB_COM_RENAME, .SMB_COM_QUERY_INFORMATION,
   .SMB_COM_SETATTR, .SMB_COM_OPEN_ANDX, .SMB_COM_NEGOTIATE, .SMB_COM_CHECK_DIRECTORY,
   .SMB_COM_TREE_CONNECT_ANDX, .SMB_COM_WRITE, .SMB_COM_NT_RENAME,
   .SMB_COM_NT_CREATE_ANDX]

/-- The bytes of a list of C strings laid out one after the other, each with
its terminating NUL. -/
def dialect_bytes : List (List Nat) → List Nat
  | [] => []
  | s :: rest => s ++ 0 :: dialect_bytes rest

/-- The bytes of the wire name of the legacy entry, without the NUL. -/
def nt_lm_012 : List Nat := "\x02NT LM 0.12".toList.map Char.toNat

/-! ## The rules as the specification words them -/

/-- Word-count rule of each command. -/
def wc_rule : Command → Nat → Bool
  | .SMB_COM_CREATE_DIRECTORY, wc => wc == 0
  | .SMB_COM_DELETE_DIRECTORY, wc => wc == 0
  | .SMB_COM_QUERY_INFORMATION, wc => wc == 0
  | .SMB_COM_TREE_DISCONNECT, wc => wc == 0
  | .SMB_COM_NEGOTIATE, wc => wc == 0
  | .SMB_COM_NT_CANCEL, wc => wc == 0
  | .SMB_COM_CHECK_DIRECTORY, wc => wc == 0
  | .SMB_COM_PROCESS_EXIT, wc => wc == 0
  | .SMB_COM_FLUSH, wc => wc == 1
  | .SMB_COM_DELETE, wc => wc == 1
  | .SMB_COM_RENAME, wc => wc == 1
  | .SMB_COM_ECHO, wc => wc == 1
  | .SMB_COM_FIND_CLOSE2, wc => wc == 1
  | .SMB_COM_LOGOFF_ANDX, wc => wc == 2
  | .SMB_COM_CLOSE, wc => wc == 3
  | .SMB_COM_TREE_CONNECT_ANDX, wc => wc == 4
  | .SMB_COM_NT_RENAME, wc => wc == 4
  | .SMB_COM_WRITE, wc => wc == 5
  | .SMB_COM_SETATTR, wc => wc == 8
  | .SMB_COM_LOCKING_ANDX, wc => wc == 8
  | .SMB_COM_SESSION_SETUP_ANDX, wc => wc == 12
  | .SMB_COM_OPEN_ANDX, wc => wc == 15
  | .SMB_COM_TRANSACTION2, wc => wc == 15
  | .SMB_COM_NT_CREATE_ANDX, wc => wc == 24
  | .SMB_COM_READ_ANDX, wc => wc == 10 || wc == 12
  | .SMB_COM_WRITE_ANDX, wc => wc == 12 || wc == 14
  | .SMB_COM_TRANSACTION, wc => decide (14 ≤ wc)

/-- Byte-count rule of each command: exactly zero, a minimum, or, for the
create command, a minimum that depends on the Unicode flag. -/
def bc_rule : Command → Bool → Nat → Bool
  | .SMB_COM_CLOSE, _, bc => bc == 0
  | .SMB_COM_FLUSH, _, bc => bc == 0
  | .SMB_COM_READ_ANDX, _, bc => bc == 0
  | .SMB_COM_TREE_DISCONNECT, _, bc => bc == 0
  | .SMB_COM_LOGOFF_ANDX, _, bc => bc == 0
  | .SMB_COM_NT_CANCEL, _, bc => bc == 0
  | .SMB_COM_PROCESS_EXIT, _, bc => bc == 0
  | .SMB_COM_FIND_CLOSE2, _, bc => bc == 0
  | .SMB_COM_LOCKING_ANDX, _, _ => true
  | .SMB_COM_TRANSACTION, _, _ => true
  | .SMB_COM_TRANSACTION2, _, _ => true
  | .SMB_COM_ECHO, _, _ => true
  | .SMB_COM_SESSION_SETUP_ANDX, _, _ => true
  | .SMB_COM_WRITE_ANDX, _, bc => decide (1 ≤ bc)
  | .SMB_COM_CREATE_DIRECTORY, _, bc => decide (2 ≤ bc)
  | .SMB_COM_DELETE_DIRECTORY, _, bc => decide (2 ≤ bc)
  | .SMB_COM_DELETE, _, bc => decide (2 ≤ bc)
  | .SMB_COM_RENAME, _, bc => decide (2 ≤ bc)
  | .SMB_COM_QUERY_INFORMATION, _, bc => decide (2 ≤ bc)
  | .SMB_COM_SETATTR, _, bc => decide (2 ≤ bc)
  | .SMB_COM_OPEN_ANDX, _, bc => decide (2 ≤ bc)
  | .SMB_COM_NEGOTIATE, _, bc => decide (2 ≤ bc)
  | .SMB_COM_CHECK_DIRECTORY, _, bc => decide (2 ≤ bc)
  | .SMB_COM_TREE_CONNECT_ANDX, _, bc => decide (3 ≤ bc)
  | .SMB_COM_WRITE, _, bc => decide (3 ≤ bc)
  | .SMB_COM_NT_RENAME, _, bc => decide (4 ≤ bc)
  | .SMB_COM_NT_CREATE_ANDX, unicode, bc =>
    if unicode then decide (3 ≤ bc) else decide (2 ≤ bc)

/-- The byte count of a request: the 16-bit field right after the parameter
words, at offset `sizeof(struct smb_hdr) + 2 * WordCount`. -/
def smb_hdr.byte_count (K : Env) (h : smb_hdr) : Nat :=
  h.le16_at (K.sizeof_smb_hdr + 2 * h.WordCount)

/-- Whether the Unicode bit of `Flags2` is set. -/
def smb_hdr.unicode (K : Env) (h : smb_hdr) : Bool :=
  decide (h.Flags2 &&& K.SMBFLG2_UNICODE ≠ 0)

/-! ## The header values of cifsd, for evaluation -/

/-- The `SMB_COM_*` values of `smb1pdu.h`. -/
def cifsd_code : Command → Nat
  | .SMB_COM_CREATE_DIRECTORY => 0x00
  | .SMB_COM_DELETE_DIRECTORY => 0x01
  | .SMB_COM_CLOSE => 0x04
  | .SMB_COM_FLUSH => 0x05
  | .SMB_COM_DELETE => 0x06
  | .SMB_COM_RENAME => 0x07
  | .SMB_COM_QUERY_INFORMATION => 0x08
  | .SMB_COM_SETATTR => 0x09
  | .SMB_COM_WRITE => 0x0B
  | .SMB_COM_CHECK_DIRECTORY => 0x10
  | .SMB_COM_PROCESS_EXIT => 0x11
  | .SMB_COM_LOCKING_ANDX => 0x24
  | .SMB_COM_TRANSACTION => 0x25
  | .SMB_COM_ECHO => 0x2B
  | .SMB_COM_OPEN_ANDX => 0x2D
  | .SMB_COM_READ_ANDX => 0x2E
  | .SMB_COM_WRITE_ANDX => 0x2F
  | .SMB_COM_TRANSACTION2 => 0x32
  | .SMB_COM_FIND_CLOSE2 => 0x34
  | .SMB_COM_TREE_DISCONNECT => 0x71
  | .SMB_COM_NEGOTIATE => 0x72
  | .SMB_COM_SESSION_SETUP_ANDX => 0x73
  | .SMB_COM_LOGOFF_ANDX => 0x74
  | .SMB_COM_TREE_CONNECT_ANDX => 0x75
  | .SMB_COM_NT_CREATE_ANDX => 0xA2
  | .SMB_COM_NT_CANCEL => 0xA4
  | .SMB_COM_NT_RENAME => 0xA5

/-- The constants as the cifsd headers and Linux define them, with the legacy
family compiled in; `struct smb_hdr` is 37 bytes long. -/
def cifsd_env : Env where
  EINVAL := 22
  EOPNOTSUPP := 95
  sizeof_smb_hdr := 37
  SMB1_PROTO_NUMBER := 0x424d53ff
  SMB2_PROTO_NUMBER := 0x424d53fe
  SMBFLG_RESPONSE := 0x80
  SMBFLG2_UNICODE := 0x8000
  code := cifsd_code
  RFC1002_SESSION_MESSAGE := 0x00
  RFC1002_SESSION_KEEP_ALIVE := 0x85
  CIFSD_SMB1_PROT := 0
  CIFSD_SMB2_PROT := 1
  CIFSD_SMB21_PROT := 2
  CIFSD_SMB2X_PROT := 3
  CIFSD_SMB30_PROT := 4
  CIFSD_SMB302_PROT := 5
  CIFSD_SMB311_PROT := 6
  CIFSD_SMB10_PROT_ID := 0x00
  CIFSD_SMB20_PROT_ID := 0x0202
  CIFSD_SMB21_PROT_ID := 0x0210
  CIFSD_SMB2X_PROT_ID := 0x02FF
  CIFSD_SMB30_PROT_ID := 0x0300
  CIFSD_SMB302_PROT_ID := 0x0302
  CIFSD_SMB311_PROT_ID := 0x0311
  CIFSD_BAD_PROT_ID := 0xFFFF
  CONFIG_CIFS_SMB1_SERVER := true

/-- A request that carries the legacy signature and no flag, with every other
field zero; the examples below override the fields they are about. -/
def blank_request : smb_hdr where
  Protocol := 0x424d53ff
  Command := 0
  Flags := 0
  Flags2 := 0
  WordCount := 0
  le16_at := fun _ => 0
  DataLengthLow := 0
  DataLengthHigh := 0
  DataOffset := 0
  trans_DataOffset := 0
  trans_DataCount := 0
  trans2_DataOffset := 0
  trans2_DataCount := 0

/-- A legacy request with the given command, `Flags2`, word count and byte
count (stored right after the parameter words of a 37-byte header), every
other field as in `blank_request`. -/
def request (cmd flags2 wc bc : Nat) : smb_hdr :=
  { blank_request with
    Command := cmd, Flags2 := flags2, WordCount := wc,
    le16_at := fun off => if off = 37 + 2 * wc then bc else 0 }

/-! ## Auxiliary facts -/

theorem Command.mem_all (c : Command) : c ∈ Command.all := by
  cases c <;> simp [Command.all]

theorem Env.label_eq_none {K : Env} {v : Nat} :
    K.label v = none ↔ ∀ c, K.code c ≠ v := by
  unfold Env.label
  rw [List.find?_eq_none]
  constructor
  · intro h c hc
    exact h c (Command.mem_all c) (by simp [hc])
  · intro h c _ hc
    exact h c (by simpa using hc)

theorem Env.label_some {K : Env} {v : Nat} {c : Command}
    (h : K.label v = some c) : K.code c = v := by
  unfold Env.label at h
  have := List.find?_some h
  simpa using this

theorem Env.label_code {K : Env} (hinj : Function.Injective K.code) (c : Command) :
    K.label (K.code c) = some c := by
  cases h : K.label (K.code c) with
  | none => exact absurd rfl (Env.label_eq_none.mp h c)
  | some d => rw [hinj (Env.label_some h)]

theorem req_struct_size_of_label {K : Env} {h : smb_hdr} {c : Command}
    (hl : K.label h.Command = some c) :
    smb1_req_struct_size K h =
      if wc_rule c h.WordCount then (h.WordCount : Int) else -(K.EINVAL : Int) := by
  cases c <;> simp only [smb1_req_struct_size, le16_to_cpu, hl, wc_rule] <;>
    split_ifs <;> first | rfl | (simp_all <;> omega)

theorem get_byte_count_of_label {K : Env} {h : smb_hdr} {c : Command}
    (hl : K.label h.Command = some c) :
    smb1_get_byte_count K h =
      if bc_rule c (h.unicode K) (h.byte_count K) then (h.byte_count K : Int)
      else -(K.EINVAL : Int) := by
  have hb : h.WordCount * 2 = 2 * h.WordCount := by omega
  cases c <;>
    simp only [smb1_get_byte_count, le16_to_cpu, hl, bc_rule, smb_hdr.byte_count,
      smb_hdr.unicode, hb] <;>
    split_ifs <;> first | rfl | (simp_all <;> omega) | omega

theorem to_u32_neg_errno {e : Nat} (h0 : 0 < e) (h1 : e ≤ 4095) :
    to_u32 (-(e : Int)) = 4294967296 - e := by
  unfold to_u32; omega

theorem to_u32_int32 (x : Int) : to_u32 (int32 x) = to_u32 x := by
  unfold to_u32 int32
  simp only []
  split_ifs <;> omega

theorem int32_of_small {x : Int} (h0 : 0 ≤ x) (h1 : x < 2147483648) : int32 x = x := by
  unfold int32
  simp only []
  split_ifs <;> omega

theorem to_u32_of_small {x : Int} (h0 : 0 ≤ x) (h1 : x < 4294967296) :
    (to_u32 x : Int) = x := by
  unfold to_u32; omega

/-- The value of `smb1_calc_size` for a known command. -/
theorem calc_size_of_label {K : Env} (hK : K.WF) {h : smb_hdr} {c : Command}
    (hl : K.label h.Command = some c) (hwc : h.WordCount < 256)
    (hbc : h.byte_count K < 65536) :
    smb1_calc_size K h =
      if bc_rule c (h.unicode K) (h.byte_count K) then
        K.sizeof_smb_hdr - 4 + 2 + 2 * h.WordCount + h.byte_count K
      else 4294967296 - K.EINVAL := by
  have h1 := hK.hdr_ge
  have h2 := hK.hdr_lt
  have h3 := hK.EINVAL_pos
  have h4 := hK.EINVAL_le
  unfold smb1_calc_size
  simp only [get_byte_count_of_label hl]
  by_cases hb : bc_rule c (h.unicode K) (h.byte_count K) = true
  · simp only [hb, if_true]
    have : ¬ ((h.byte_count K : Int) < 0) := by omega
    simp only [this, if_false]
    unfold to_u32 int32
    simp only []
    split_ifs <;> omega
  · simp only [hb]
    have : (-(K.EINVAL : Int) < 0) := by omega
    simp [this, to_u32_neg_errno h3 h4]

/-- The data length of a command other than the extended write is a sum of
two 16-bit fields, or zero. -/
theorem get_data_len_bounds {K : Env} {h : smb_hdr} (hr : h.InRange)
    (hl : K.label h.Command ≠ some Command.SMB_COM_WRITE_ANDX) :
    0 ≤ smb1_get_data_len K h ∧ smb1_get_data_len K h ≤ 131070 := by
  have a1 := hr.trans_DataOffset
  have a2 := hr.trans_DataCount
  have a3 := hr.trans2_DataOffset
  have a4 := hr.trans2_DataCount
  unfold smb1_get_data_len
  simp only [le16_to_cpu]
  split
  · rename_i heq; exact absurd heq hl
  · rw [int32_of_small (by omega) (by omega)]; omega
  · rw [int32_of_small (by omega) (by omega)]; omega
  · omega

theorem command_eq_write_andx {K : Env} (hK : K.WF) {h : smb_hdr} {c : Command}
    (hl : K.label h.Command = some c) :
    ((h.Command : Int) = (K.code Command.SMB_COM_WRITE_ANDX : Int)) ↔ c = Command.SMB_COM_WRITE_ANDX := by
  have := Env.label_some hl
  constructor
  · intro h1
    have h2 : h.Command = K.code Command.SMB_COM_WRITE_ANDX := by exact_mod_cast h1
    exact hK.code_inj (this.trans h2)
  · intro h1; subst h1; rw [this]

/-- The checker on a request whose command is in the table, gate by gate. -/
theorem check_message_of_label {K : Env} (hK : K.WF) {w : cifsd_work} {c : Command}
    (hl : K.label w.request_buf.Command = some c) :
    smb1_check_message K w =
      if check_smb1_hdr K w.request_buf ≠ 0 then 1
      else if wc_rule c w.request_buf.WordCount = false then 1
      else if w.rfc1002_length < to_u32 (smb1_get_data_len K w.request_buf) then 1
      else if w.rfc1002_length ≠ smb1_calc_size K w.request_buf then
        (if c = Command.SMB_COM_WRITE_ANDX then 0 else 1)
      else 0 := by
  have h3 := hK.EINVAL_pos
  have h5 := hK.EOPNOTSUPP_pos
  unfold smb1_check_message
  simp only [req_struct_size_of_label hl, command_eq_write_andx hK hl]
  by_cases hg : check_smb1_hdr K w.request_buf = 0
  · by_cases hw : wc_rule c w.request_buf.WordCount = true
    · have e1 : ¬ ((w.request_buf.WordCount : Int) = -(K.EOPNOTSUPP : Int)) := by omega
      simp [hg, hw, e1]
    · have hw2 : wc_rule c w.request_buf.WordCount = false := by simpa using hw
      have e2 : ¬ ((w.request_buf.WordCount : Int) = -(K.EINVAL : Int)) := by omega
      simp [hg, hw2, e2]
  · simp [hg]

theorem check_smb1_hdr_cases (K : Env) (h : smb_hdr) :
    check_smb1_hdr K h = 0 ∨ check_smb1_hdr K h = 1 := by
  unfold check_smb1_hdr
  split_ifs <;> simp

theorem cifsd_env_WF : cifsd_env.WF where
  code_inj := by
    intro a b h
    cases a <;> cases b <;> first | rfl | (exact absurd h (by decide))
  EINVAL_pos := by decide
  EINVAL_le := by decide
  EOPNOTSUPP_pos := by decide
  EOPNOTSUPP_le := by decide
  hdr_ge := by decide
  hdr_lt := by decide

theorem blank_request_InRange : blank_request.InRange := by
  constructor <;> first | decide | (intro _; show (0 : Nat) < 65536; decide)

theorem request_InRange {cmd flags2 wc bc : Nat} (h1 : cmd < 256) (h2 : flags2 < 65536)
    (h3 : wc < 256) (h4 : bc < 65536) : (request cmd flags2 wc bc).InRange := by
  constructor <;> first
    | assumption
    | (intro off; show (if off = 37 + 2 * wc then bc else 0) < 65536; split_ifs <;> omega)
    | simp [request, blank_request]

theorem smb2_ids_ne {K : Env}
    (hids : ((smb2_protos K).map smb_protocol.prot_id).Nodup)
    {i j : Nat} {p q : smb_protocol}
    (hi : (smb2_protos K)[i]? = some p) (hj : (smb2_protos K)[j]? = some q)
    (hne : i ≠ j) : p.prot_id ≠ q.prot_id := by
  have key : ∀ (a b : Nat) (x y : smb_protocol), (smb2_protos K)[a]? = some x →
      (smb2_protos K)[b]? = some y → a < b → x.prot_id ≠ y.prot_id := by
    intro a b x y ha hb hab
    have hlen : b < ((smb2_protos K).map smb_protocol.prot_id).length := by
      rw [List.length_map]
      exact (List.getElem?_eq_some_iff.mp hb).1
    have := List.nodup_iff_getElem?_ne_getElem?.mp hids a b hab hlen
    rw [List.getElem?_map, List.getElem?_map, ha, hb] at this
    intro h
    exact this (by simp [h])
  rcases Nat.lt_or_gt_of_ne hne with h | h
  · exact key i j p q hi hj h
  · exact fun e => key j i q p hj hi h e.symm

theorem smb2_dialect_scan_none (conf : server_conf) (cli : Nat → Nat) (p : smb_protocol)
    (i : Nat) : ∀ count : Nat, (∀ k, k < count → cli k ≠ p.prot_id) →
      smb2_dialect_scan conf cli p i count = none
  | 0, _ => rfl
  | count + 1, h => by
    have h1 : cli count ≠ p.prot_id := h count (Nat.lt_succ_self _)
    have ih := smb2_dialect_scan_none conf cli p i count
      (fun k hk => h k (Nat.lt_succ_of_lt hk))
    simp [smb2_dialect_scan, le16_to_cpu, h1, ih]

theorem smb2_dialect_scan_hit (conf : server_conf) (cli : Nat → Nat) (p : smb_protocol)
    (i : Nat) (hs : supported_protocol conf i = true) :
    ∀ count : Nat, (∃ k, k < count ∧ cli k = p.prot_id) →
      smb2_dialect_scan conf cli p i count = some (p.prot_id : Int)
  | 0, h => by obtain ⟨k, hk, _⟩ := h; exact absurd hk (Nat.not_lt_zero _)
  | count + 1, h => by
    by_cases h1 : cli count = p.prot_id
    · simp [smb2_dialect_scan, le16_to_cpu, h1, hs]
    · obtain ⟨k, hk, hk2⟩ := h
      have hk3 : k < count := by
        rcases Nat.lt_succ_iff_lt_or_eq.mp hk with h2 | h2
        · exact h2
        · subst h2; exact absurd hk2 h1
      have ih := smb2_dialect_scan_hit conf cli p i hs count ⟨k, hk3, hk2⟩
      simp [smb2_dialect_scan, le16_to_cpu, h1, ih]

theorem smb2_dialect_loop_skip (K : Env) (conf : server_conf) (cli : Nat → Nat)
    (count m : Nat) : ∀ n : Nat, m ≤ n →
      (∀ (k : Nat) (p : smb_protocol), m ≤ k → k < n → (smb2_protos K)[k]? = some p →
        ∀ c, c < count → cli c ≠ p.prot_id) →
      smb2_dialect_loop K conf cli count n = smb2_dialect_loop K conf cli count m
  | 0, hmn, _ => by
    have : m = 0 := Nat.le_zero.mp hmn
    rw [this]
  | n + 1, hmn, h => by
    rcases Nat.lt_or_ge n m with hlt | hge
    · have : m = n + 1 := by omega
      rw [this]
    · have ih := smb2_dialect_loop_skip K conf cli count m n hge
        (fun k p h1 h2 h3 => h k p h1 (Nat.lt_succ_of_lt h2) h3)
      cases hp : (smb2_protos K)[n]? with
      | none => simp [smb2_dialect_loop, hp, ih]
      | some p =>
        have hn := smb2_dialect_scan_none conf cli p n count
          (h n p hge (Nat.lt_succ_self _) hp)
        simp [smb2_dialect_loop, hp, le16_to_cpu, hn, ih]

/-! ## Auxiliary facts on C strings and the lookups -/

theorem strlen_append_nul (s rest : List Nat) (hs : ∀ c ∈ s, c ≠ 0) :
    strlen (s ++ 0 :: rest) = some s.length := by
  induction s with
  | nil => simp [strlen]
  | cons a t ih =>
    have ha : a ≠ 0 := hs a (List.mem_cons_self _ _)
    have ht : ∀ c ∈ t, c ≠ 0 := fun c hc => hs c (List.mem_cons_of_mem _ hc)
    simp [strlen, ha, ih ht]

theorem strncmp_eq_zero_iff (s : List Nat) (hs : ∀ c ∈ s, c ≠ 0) :
    ∀ (rest t : List Nat), strncmp (s ++ rest) (t ++ [0]) s.length = 0 ↔ s <+: t := by
  induction s with
  | nil => intro rest t; simp [strncmp]
  | cons a s1 ih =>
    intro rest t
    have ha : a ≠ 0 := hs a (List.mem_cons_self _ _)
    have hs1 : ∀ c ∈ s1, c ≠ 0 := fun c hc => hs c (List.mem_cons_of_mem _ hc)
    cases t with
    | nil =>
      simp only [List.cons_append, List.length_cons, strncmp, List.headD_cons, List.nil_append]
      simp [ha]
    | cons b t1 =>
      simp only [List.cons_append, List.length_cons, strncmp, List.headD_cons, List.tail_cons]
      by_cases hab : a = b
      · subst hab
        simp only [ne_eq, not_true_eq_false, if_false, ha]
        rw [ih hs1 rest t1]
        simp [List.cons_prefix_cons]
      · have : (a : Int) - (b : Int) ≠ 0 := by omega
        simp [hab, this, List.cons_prefix_cons]

theorem dialect_bytes_length_ge (l : List (List Nat)) : l.length ≤ (dialect_bytes l).length := by
  induction l with
  | nil => simp [dialect_bytes]
  | cons s t ih => simp [dialect_bytes]; omega

theorem drop_string (s rest : List Nat) : (s ++ 0 :: rest).drop (s.length + 1) = rest := by
  have : s ++ 0 :: rest = (s ++ [0]) ++ rest := by simp
  rw [this]
  have hl : s.length + 1 = (s ++ [0]).length := by simp
  rw [hl, List.drop_left]

/-- One pass over a client string that is no prefix of the entry's name. -/
theorem smb1_dialect_step_skip (K : Env) (conf : server_conf) (mem : List Nat)
    (p : smb_protocol) (i : Nat) (st : smb1_scan_state) (str rest : List Nat)
    (hmem : mem.drop st.dialects = str ++ 0 :: rest)
    (hstr : ∀ c ∈ str, c ≠ 0)
    (hno : ¬ str <+: p.name.toList.map Char.toNat)
    (hlen : str.length < 65536)
    (hb : 0 ≤ st.bcount ∧ st.bcount < 65536)
    (hi : 0 ≤ st.smb1_index ∧ st.smb1_index < 65536) :
    smb1_dialect_step K conf mem p i st =
      .next { bcount := st.bcount - ((str.length : Int) + 1),
              dialects := st.dialects + (str.length + 1),
              smb1_index := st.smb1_index + 1 } := by
  have hcmp : ¬ strncmp (str ++ 0 :: rest) (c_string p.name) str.length = 0 := by
    unfold c_string
    rw [strncmp_eq_zero_iff str hstr]
    exact hno
  unfold smb1_dialect_step
  rw [hmem, strlen_append_nul str rest hstr]
  simp only [hcmp, false_and, if_false]
  have e1 : int32 (int32 (str.length : Int) + 1) = (str.length : Int) + 1 := by
    unfold int32; simp only []; split_ifs <;> omega
  have e2 : int32 (st.bcount - ((str.length : Int) + 1)) = st.bcount - ((str.length : Int) + 1) := by
    unfold int32; simp only []; split_ifs <;> omega
  have e3 : int32 (st.smb1_index + 1) = st.smb1_index + 1 := by
    unfold int32; simp only []; split_ifs <;> omega
  simp only [Nat.cast_id] at *
  rw [e1, e2, e3]

/-- One pass over a client string that equals the entry's name. -/
theorem smb1_dialect_step_hit (K : Env) (conf : server_conf) (mem : List Nat)
    (p : smb_protocol) (i : Nat) (st : smb1_scan_state) (rest : List Nat)
    (hmem : mem.drop st.dialects = p.name.toList.map Char.toNat ++ 0 :: rest)
    (hstr : ∀ c ∈ p.name.toList.map Char.toNat, c ≠ 0)
    (hsup : supported_protocol conf i = true)
    (hpos : (i : Int) = K.CIFSD_SMB1_PROT) :
    smb1_dialect_step K conf mem p i st = .returned st.smb1_index := by
  have hcmp : strncmp (p.name.toList.map Char.toNat ++ 0 :: rest) (c_string p.name)
      (p.name.toList.map Char.toNat).length = 0 := by
    unfold c_string
    rw [strncmp_eq_zero_iff _ hstr]
  unfold smb1_dialect_step
  rw [hmem, strlen_append_nul _ rest hstr]
  simp only [hcmp, hsup, and_self, if_true]
  rw [if_pos hpos]

theorem smb1_dialect_scan_finds (K : Env) (conf : server_conf) (mem : List Nat)
    (p : smb_protocol) (i : Nat) (post : List (List Nat))
    (hname : ∀ c ∈ p.name.toList.map Char.toNat, c ≠ 0)
    (hsup : supported_protocol conf i = true)
    (hpos : (i : Int) = K.CIFSD_SMB1_PROT) :
    ∀ (pre : List (List Nat)) (fuel : Nat) (st : smb1_scan_state),
      pre.length < fuel →
      mem.drop st.dialects = dialect_bytes (pre ++ (p.name.toList.map Char.toNat) :: post) →
      st.bcount = ((dialect_bytes (pre ++ (p.name.toList.map Char.toNat) :: post)).length : Int) →
      st.bcount < 65536 →
      0 ≤ st.smb1_index → st.smb1_index + pre.length < 65536 →
      (∀ s ∈ pre, (∀ c ∈ s, c ≠ 0) ∧ ¬ s <+: p.name.toList.map Char.toNat) →
      smb1_dialect_scan K conf mem p i fuel st = .returned (st.smb1_index + pre.length) := by
  intro pre
  induction pre with
  | nil =>
    intro fuel st hf hmem hb hb2 h0 h1 _
    obtain ⟨f, rfl⟩ : ∃ f, fuel = f + 1 := ⟨fuel - 1, by simp at hf; omega⟩
    simp only [List.nil_append, dialect_bytes] at hmem hb
    have hne : st.bcount ≠ 0 := by
      rw [hb]; simp
      omega
    unfold smb1_dialect_scan
    rw [if_neg hne, smb1_dialect_step_hit K conf mem p i st _ hmem hname hsup hpos]
    simp
  | cons s pre1 ih =>
    intro fuel st hf hmem hb hb2 h0 h1 hpre
    obtain ⟨f, rfl⟩ : ∃ f, fuel = f + 1 := ⟨fuel - 1, by simp at hf; omega⟩
    simp only [List.cons_append, dialect_bytes, List.append_eq] at hmem hb
    have hs := hpre s (List.mem_cons_self _ _)
    have hlen : (s.length : Int) + 1 +
        ((dialect_bytes (pre1 ++ (p.name.toList.map Char.toNat) :: post)).length : Int)
        = st.bcount := by
      rw [hb]; simp; omega
    have hge := dialect_bytes_length_ge (pre1 ++ (p.name.toList.map Char.toNat) :: post)
    have hne : st.bcount ≠ 0 := by omega
    simp only [List.length_cons] at h1 hf
    have hstep := smb1_dialect_step_skip K conf mem p i st s _ hmem hs.1 hs.2
      (by omega) ⟨by omega, hb2⟩ ⟨h0, by omega⟩
    unfold smb1_dialect_scan
    rw [if_neg hne, hstep]
    simp only []
    rw [ih f _ (by omega)
      (by
        show mem.drop (st.dialects + (s.length + 1)) = _
        rw [← List.drop_drop, hmem, drop_string])
      (by show st.bcount - ((s.length : Int) + 1) = _; omega)
      (by show st.bcount - ((s.length : Int) + 1) < 65536; omega)
      (by show 0 ≤ st.smb1_index + 1; omega)
      (by show st.smb1_index + 1 + (pre1.length : Int) < 65536; push_cast at h1; omega)
      (fun s1 hs1 => hpre s1 (List.mem_cons_of_mem _ hs1))]
    have hc : (((s :: pre1).length : Nat) : Int) = (pre1.length : Int) + 1 := by simp
    rw [hc]
    show smb1_scan_end.returned (st.smb1_index + 1 + (pre1.length : Int)) = _
    congr 1
    omega

theorem smb1_dialect_scan_fuel (K : Env) (conf : server_conf) (mem : List Nat)
    (p : smb_protocol) (i : Nat) :
    ∀ (fuel : Nat) (st : smb1_scan_state), 1 ≤ fuel → mem.length + 1 ≤ st.dialects + fuel →
      smb1_dialect_scan K conf mem p i fuel st ≠ .out_of_fuel := by
  intro fuel
  induction fuel with
  | zero => intro st h; omega
  | succ f ih =>
    intro st _ hlen
    unfold smb1_dialect_scan
    by_cases hb : st.bcount = 0
    · simp [hb]
    · rw [if_neg hb]
      by_cases hd : mem.length ≤ st.dialects
      · have : strlen (mem.drop st.dialects) = none := by
          rw [List.drop_eq_nil_of_le hd]; rfl
        simp [smb1_dialect_step, this]
      · cases hs : strlen (mem.drop st.dialects) with
        | none => simp [smb1_dialect_step, hs]
        | some n =>
          simp only [smb1_dialect_step, hs]
          split_ifs
          · simp
          · simp
          · simp only []
            exact ih _ (by omega) (by show mem.length + 1 ≤ st.dialects + (n + 1) + f; omega)

/-- The bound on the passes that `smb1_dialect_loop` gives the inner loop is
never used up: the loop ends by a `return`, by `bcount = 0`, or by leaving
the readable memory. -/
theorem smb1_dialect_scan_never_out_of_fuel (K : Env) (conf : server_conf) (mem : List Nat)
    (byte_count : Nat) (p : smb_protocol) (i : Nat) :
    smb1_dialect_scan K conf mem p i (mem.length + 2)
      { bcount := le16_to_cpu byte_count, dialects := 0, smb1_index := 0 } ≠ .out_of_fuel :=
  smb1_dialect_scan_fuel K conf mem p i _ _ (by omega) (by show mem.length + 1 ≤ 0 + (mem.length + 2); omega)

theorem lookup_proto_idx_loop_skip (str : List Nat) (list : List smb_protocol)
    (len m : Nat) : ∀ n : Nat, m ≤ n →
      (∀ (k : Nat) (q : smb_protocol), m ≤ k → k < n → list[k]? = some q →
        strncmp str (c_string q.prot) len ≠ 0) →
      lookup_proto_idx_loop str list len n = lookup_proto_idx_loop str list len m
  | 0, hmn, _ => by
    have : m = 0 := Nat.le_zero.mp hmn
    rw [this]
  | n + 1, hmn, h => by
    rcases Nat.lt_or_ge n m with hlt | hge
    · have : m = n + 1 := by omega
      rw [this]
    · have ih := lookup_proto_idx_loop_skip str list len m n hge
        (fun k q h1 h2 h3 => h k q h1 (Nat.lt_succ_of_lt h2) h3)
      cases hp : list[n]? with
      | none => simp [lookup_proto_idx_loop, hp, ih]
      | some q =>
        have hq := h n q hge (Nat.lt_succ_self _) hp
        simp [lookup_proto_idx_loop, hp, hq, ih]

theorem Command.mem_get_byte_count_cases (c : Command) : c ∈ get_byte_count_cases := by
  cases c <;> decide

/-- With no dialect offered (count 0, byte count 0) both negotiators return
`CIFSD_BAD_PROT_ID`, for every configured range. -/
theorem lookup_dialect_empty_list (K : Env) (conf : server_conf) :
    (∀ cli_dialects : Nat → Nat,
      cifsd_lookup_smb2_dialect K conf cli_dialects 0 = K.CIFSD_BAD_PROT_ID) ∧
    (∀ cli_dialects : List Nat,
      cifsd_lookup_smb1_dialect K conf cli_dialects 0 = some K.CIFSD_BAD_PROT_ID) := by
  constructor
  · intro cli
    simp [cifsd_lookup_smb2_dialect, smb2_protos, smb2_dialect_loop, smb2_dialect_scan,
      le16_to_cpu]
  · intro cli
    unfold cifsd_lookup_smb1_dialect
    by_cases h : K.CONFIG_CIFS_SMB1_SERVER = true
    · simp [h, smb1_protos, smb1_dialect_loop, smb1_dialect_scan, le16_to_cpu]
    · simp [h]

/-! ## The legacy message checker -/

/-- C1: `check_smb1_hdr` returns 1 exactly when the `Protocol` field differs
from `SMB1_PROTO_NUMBER` or the `SMBFLG_RESPONSE` bit of `Flags` is set, and 0
otherwise; and whenever it returns 1, `smb1_check_message` returns 1, whatever
the other fields and the envelope length are. -/
theorem check_smb1_hdr_malformed_iff (K : Env) (work : cifsd_work) :
    (check_smb1_hdr K work.request_buf = 1 ↔
      (work.request_buf.Protocol ≠ K.SMB1_PROTO_NUMBER ∨
        work.request_buf.Flags &&& K.SMBFLG_RESPONSE ≠ 0)) ∧
    (check_smb1_hdr K work.request_buf = 0 ↔
      ¬ (work.request_buf.Protocol ≠ K.SMB1_PROTO_NUMBER ∨
        work.request_buf.Flags &&& K.SMBFLG_RESPONSE ≠ 0)) ∧
    (check_smb1_hdr K work.request_buf = 1 → smb1_check_message K work = 1) := by
  refine ⟨?_, ?_, ?_⟩
  · unfold check_smb1_hdr
    split_ifs with h1 h2 <;> simp_all
  · unfold check_smb1_hdr
    split_ifs with h1 h2 <;> simp_all
  · intro h
    simp [smb1_check_message, h]

/-- C2: when the command code is none of the 27 `case` constants of
`smb1_req_struct_size`, that function returns `-EOPNOTSUPP` and
`smb1_check_message` returns 1, and this stays so when the word count, the
byte-count field, the data offset and length fields and the envelope length
are replaced by any other values. -/
theorem unknown_command_unsupported (K : Env) (work : cifsd_work)
    (hcmd : ∀ c : Command, K.code c ≠ work.request_buf.Command) :
    smb1_req_struct_size K work.request_buf = -(K.EOPNOTSUPP : Int) ∧
    smb1_check_message K work = 1 ∧
    ∀ (bc : Nat → Nat) (lo hi off t1o t1c t2o t2c wc len : Nat),
      smb1_req_struct_size K { work.request_buf with WordCount := wc }
          = -(K.EOPNOTSUPP : Int) ∧
      smb1_check_message K
        { request_buf := { work.request_buf with
            WordCount := wc, le16_at := bc, DataLengthLow := lo, DataLengthHigh := hi,
            DataOffset := off, trans_DataOffset := t1o, trans_DataCount := t1c,
            trans2_DataOffset := t2o, trans2_DataCount := t2c },
          rfc1002_length := len } = 1 := by
  have hl : K.label (le16_to_cpu work.request_buf.Command) = none :=
    Env.label_eq_none.mpr hcmd
  have h1 : ∀ h : smb_hdr, h.Command = work.request_buf.Command →
      smb1_req_struct_size K h = -(K.EOPNOTSUPP : Int) := by
    intro h hc
    simp [smb1_req_struct_size, hc, hl]
  refine ⟨h1 _ rfl, ?_, ?_⟩
  · simp [smb1_check_message, h1 _ rfl]
  · intros
    exact ⟨h1 _ rfl, by simp [smb1_check_message, h1]⟩

/-- C2 at the command code 0xFF with the header values of cifsd. -/
theorem unknown_command_unsupported_witness :
    check_smb1_hdr cifsd_env (request 0xFF 0 0 0) = 0 ∧
    smb1_req_struct_size cifsd_env (request 0xFF 0 0 0) = -95 ∧
    smb1_check_message cifsd_env
      { request_buf := request 0xFF 0 0 0, rfc1002_length := 35 } = 1 :=
  have h := unknown_command_unsupported cifsd_env
    { request_buf := request 0xFF 0 0 0, rfc1002_length := 35 }
    (by intro c; cases c <;> decide)
  ⟨by decide, h.1, h.2.1⟩

/-- C3: for a command other than `SMB_COM_WRITE_ANDX` and an envelope length
below 2^24, `smb1_check_message` returns 0 exactly when the header guard
passes, the command is in the table with its word-count rule and its
byte-count rule met, the value of `smb1_get_data_len` is at most the envelope
length, and the envelope length equals
`(sizeof(struct smb_hdr) - 4 + 2) + 2 * WordCount + bc`. -/
theorem check_message_accepts_iff (K : Env) (hK : K.WF) (work : cifsd_work)
    (hr : work.request_buf.InRange) (hlen : work.rfc1002_length < 16777216)
    (hcmd : work.request_buf.Command ≠ K.code Command.SMB_COM_WRITE_ANDX) :
    smb1_check_message K work = 0 ↔
      (check_smb1_hdr K work.request_buf = 0 ∧
       (∃ c : Command, K.code c = work.request_buf.Command ∧
          wc_rule c work.request_buf.WordCount = true ∧
          bc_rule c (work.request_buf.unicode K) (work.request_buf.byte_count K) = true) ∧
       smb1_get_data_len K work.request_buf ≤ (work.rfc1002_length : Int) ∧
       (work.rfc1002_length : Int) =
         ((K.sizeof_smb_hdr : Int) - 4 + 2) + 2 * (work.request_buf.WordCount : Int)
           + (work.request_buf.byte_count K : Int)) := by
  have k1 := hK.hdr_ge
  have k2 := hK.hdr_lt
  have k3 := hK.EINVAL_pos
  have k4 := hK.EINVAL_le
  have hwc := hr.WordCount
  have hbc : work.request_buf.byte_count K < 65536 := hr.le16_at _
  cases hl : K.label work.request_buf.Command with
  | none =>
    have hnone := Env.label_eq_none.mp hl
    have h1 : smb1_req_struct_size K work.request_buf = -(K.EOPNOTSUPP : Int) := by
      simp [smb1_req_struct_size, le16_to_cpu, hl]
    have h2 : smb1_check_message K work = 1 := by
      simp [smb1_check_message, h1]
    constructor
    · intro h; rw [h2] at h; exact absurd h (by decide)
    · rintro ⟨_, ⟨c, hc, _⟩, _⟩
      exact absurd hc (hnone c)
  | some c =>
    have hcode := Env.label_some hl
    have hne : c ≠ Command.SMB_COM_WRITE_ANDX := by
      intro h; subst h; exact hcmd hcode.symm
    have hl2 : K.label work.request_buf.Command ≠ some Command.SMB_COM_WRITE_ANDX := by
      rw [hl]; intro h; exact hne (Option.some.inj h)
    obtain ⟨d0, d1⟩ := get_data_len_bounds hr hl2
    have hd : (to_u32 (smb1_get_data_len K work.request_buf) : Int) =
        smb1_get_data_len K work.request_buf := to_u32_of_small d0 (by omega)
    rw [check_message_of_label hK hl, calc_size_of_label hK hl hwc hbc]
    simp only [hne, if_false]
    have hex : (∃ c' : Command, K.code c' = work.request_buf.Command ∧
          wc_rule c' work.request_buf.WordCount = true ∧
          bc_rule c' (work.request_buf.unicode K) (work.request_buf.byte_count K) = true) ↔
        (wc_rule c work.request_buf.WordCount = true ∧
          bc_rule c (work.request_buf.unicode K) (work.request_buf.byte_count K) = true) := by
      constructor
      · rintro ⟨c', h1, h2, h3⟩
        have : c' = c := hK.code_inj (h1.trans hcode.symm)
        subst this; exact ⟨h2, h3⟩
      · rintro ⟨h2, h3⟩; exact ⟨c, hcode, h2, h3⟩
    rw [hex]
    have key : ∀ (g : Int) (w : Bool) (p q : Prop) [Decidable p] [Decidable q],
        ((if g ≠ 0 then (1 : Int) else if w = false then 1 else if p then 1
          else if q then 1 else 0) = 0) ↔ (g = 0 ∧ w = true ∧ ¬ p ∧ ¬ q) := by
      intro g w p q _ _
      split_ifs <;> simp_all
    rw [key]
    by_cases hb : bc_rule c (work.request_buf.unicode K) (work.request_buf.byte_count K) = true
    · simp only [hb, if_true, and_true, true_and]
      constructor
      · rintro ⟨h1, h2, h3, h4⟩
        refine ⟨h1, h2, by omega, by omega⟩
      · rintro ⟨h1, h2, h3, h4⟩
        refine ⟨h1, h2, by omega, by omega⟩
    · simp only [hb]
      constructor
      · rintro ⟨h1, h2, h3, h4⟩
        exfalso
        simp only [Bool.false_eq_true, if_false] at h4
        omega
      · rintro ⟨_, ⟨_, h⟩, _⟩
        exact absurd h (by simp)

/-- C3 at a CLOSE request with three parameter words, no trailing bytes and
envelope length 41. -/
theorem check_message_accepts_iff_witness :
    smb1_check_message cifsd_env
        { request_buf := request 0x04 0 3 0, rfc1002_length := 41 } = 0 ↔
      (check_smb1_hdr cifsd_env (request 0x04 0 3 0) = 0 ∧
       (∃ c : Command, cifsd_env.code c = 0x04 ∧ wc_rule c 3 = true ∧
          bc_rule c ((request 0x04 0 3 0).unicode cifsd_env)
            ((request 0x04 0 3 0).byte_count cifsd_env) = true) ∧
       smb1_get_data_len cifsd_env (request 0x04 0 3 0) ≤ ((41 : Nat) : Int) ∧
       ((41 : Nat) : Int) = (((37 : Nat) : Int) - 4 + 2) + 2 * ((3 : Nat) : Int)
           + ((request 0x04 0 3 0).byte_count cifsd_env : Int)) :=
  check_message_accepts_iff cifsd_env cifsd_env_WF
    { request_buf := request 0x04 0 3 0, rfc1002_length := 41 }
    (request_InRange (by decide) (by decide) (by decide) (by decide))
    (by decide) (by decide)

/-- C4: a `SMB_COM_WRITE_ANDX` request that passes the header guard, has word
count 12 or 14, passes the data-region gate (the comparison the code makes,
of the envelope length with `smb1_get_data_len` converted to unsigned) and
has a byte count of at least 1 is accepted, whether or not the total of
`smb1_calc_size` equals the envelope length; a request of any other command
that passes every other gate but whose computed total differs from the
envelope length is rejected. -/
theorem write_andx_length_exception (K : Env) (hK : K.WF) :
    (∀ work : cifsd_work,
      work.request_buf.Command = K.code Command.SMB_COM_WRITE_ANDX →
      check_smb1_hdr K work.request_buf = 0 →
      (work.request_buf.WordCount = 12 ∨ work.request_buf.WordCount = 14) →
      to_u32 (smb1_get_data_len K work.request_buf) ≤ work.rfc1002_length →
      1 ≤ work.request_buf.byte_count K →
      smb1_check_message K work = 0) ∧
    (∀ (work : cifsd_work) (c : Command),
      c ≠ Command.SMB_COM_WRITE_ANDX →
      work.request_buf.Command = K.code c →
      check_smb1_hdr K work.request_buf = 0 →
      wc_rule c work.request_buf.WordCount = true →
      to_u32 (smb1_get_data_len K work.request_buf) ≤ work.rfc1002_length →
      bc_rule c (work.request_buf.unicode K) (work.request_buf.byte_count K) = true →
      smb1_calc_size K work.request_buf ≠ work.rfc1002_length →
      smb1_check_message K work = 1) := by
  constructor
  · intro work hcmd hg hwc hd _
    have hl : K.label work.request_buf.Command = some Command.SMB_COM_WRITE_ANDX := by
      rw [hcmd]; exact Env.label_code hK.code_inj _
    have hw : wc_rule Command.SMB_COM_WRITE_ANDX work.request_buf.WordCount = true := by
      rcases hwc with h | h <;> simp [wc_rule, h]
    rw [check_message_of_label hK hl]
    simp [hg, hw, Nat.not_lt.mpr hd]
  · intro work c hc hcmd hg hw hd _ hne
    have hl : K.label work.request_buf.Command = some c := by
      rw [hcmd]; exact Env.label_code hK.code_inj _
    rw [check_message_of_label hK hl]
    simp [hg, hw, Nat.not_lt.mpr hd, hc, Ne.symm hne]

/-- C4 at a write request whose computed total is 60 and at a CLOSE request
whose computed total is 41, both with envelope length 100. -/
theorem write_andx_length_exception_witness :
    (smb1_calc_size cifsd_env (request 0x2F 0 12 1) = 60 ∧
      smb1_check_message cifsd_env
        { request_buf := request 0x2F 0 12 1, rfc1002_length := 100 } = 0) ∧
    (smb1_calc_size cifsd_env (request 0x04 0 3 0) = 41 ∧
      smb1_check_message cifsd_env
        { request_buf := request 0x04 0 3 0, rfc1002_length := 100 } = 1) :=
  have h := write_andx_length_exception cifsd_env cifsd_env_WF
  ⟨⟨by decide, h.1 { request_buf := request 0x2F 0 12 1, rfc1002_length := 100 }
      (by decide) (by decide) (by decide) (by decide) (by decide)⟩,
   ⟨by decide, h.2 { request_buf := request 0x04 0 3 0, rfc1002_length := 100 }
      Command.SMB_COM_CLOSE (by decide) (by decide) (by decide) (by decide) (by decide)
      (by decide) (by decide)⟩⟩

/-- C5: a `SMB_COM_WRITE_ANDX` request with twelve parameter words and byte
count 0 violates the byte-count rule (`smb1_get_byte_count` returns `-EINVAL`,
`smb1_calc_size` returns it as 4294967274), yet `smb1_check_message` returns
0 for it. -/
theorem write_andx_zero_byte_count_accepted :
    smb1_get_byte_count cifsd_env (request 0x2F 0 12 0) = -22 ∧
    smb1_calc_size cifsd_env (request 0x2F 0 12 0) = 4294967274 ∧
    smb1_check_message cifsd_env
      { request_buf := request 0x2F 0 12 0, rfc1002_length := 59 } = 0 := by
  decide

/-- C6: for the `SMB_COM_WRITE_ANDX` request with `DataLengthHigh = 0xFFFF`,
`DataLengthLow = 0xFFFF` and `DataOffset = 1` the 32-bit sum of
`smb1_get_data_len` wraps to 0, the request is accepted with envelope length
60, and the end of its data region over the integers, 2^32, exceeds 60. -/
theorem write_andx_data_len_wraps :
    smb1_get_data_len cifsd_env
      { request 0x2F 0 12 1 with
        DataLengthLow := 0xFFFF, DataLengthHigh := 0xFFFF, DataOffset := 1 } = 0 ∧
    smb1_check_message cifsd_env
      { request_buf := { request 0x2F 0 12 1 with
          DataLengthLow := 0xFFFF, DataLengthHigh := 0xFFFF, DataOffset := 1 },
        rfc1002_length := 60 } = 0 ∧
    ¬ (1 + (0xFFFF * 65536 + 0xFFFF) ≤ 60) := by
  decide

/-- C7: for `SMB_COM_NT_CREATE_ANDX`, `smb1_get_byte_count` returns the byte
count `bc` when `bc >= 3` with `SMBFLG2_UNICODE` set in `Flags2`, or when
`bc >= 2` with the flag clear, and `-EINVAL` otherwise; two headers that
differ only in `Flags2`, with `bc = 2`, get 2 without the flag and `-EINVAL`
with it, and with 24 parameter words and the matching envelope length the
checker accepts the first and rejects the second. -/
theorem nt_create_andx_byte_count (K : Env) (hK : K.WF) (h : smb_hdr)
    (hcmd : h.Command = K.code Command.SMB_COM_NT_CREATE_ANDX) :
    (smb1_get_byte_count K h =
      if (h.Flags2 &&& K.SMBFLG2_UNICODE ≠ 0 ∧ 3 ≤ h.byte_count K) ∨
         (h.Flags2 &&& K.SMBFLG2_UNICODE = 0 ∧ 2 ≤ h.byte_count K)
      then (h.byte_count K : Int) else -(K.EINVAL : Int)) ∧
    (∀ f2 : Nat, h.byte_count K = 2 → h.Flags2 &&& K.SMBFLG2_UNICODE = 0 →
      f2 &&& K.SMBFLG2_UNICODE ≠ 0 →
      smb1_get_byte_count K h = 2 ∧
      smb1_get_byte_count K { h with Flags2 := f2 } = -(K.EINVAL : Int) ∧
      (check_smb1_hdr K h = 0 → h.WordCount = 24 →
        smb1_check_message K
          { request_buf := h, rfc1002_length := K.sizeof_smb_hdr - 4 + 2 + 48 + 2 } = 0 ∧
        smb1_check_message K
          { request_buf := { h with Flags2 := f2 },
            rfc1002_length := K.sizeof_smb_hdr - 4 + 2 + 48 + 2 } = 1)) := by
  have k1 := hK.hdr_ge
  have k2 := hK.hdr_lt
  have k3 := hK.EINVAL_pos
  have k4 := hK.EINVAL_le
  have hl : K.label h.Command = some Command.SMB_COM_NT_CREATE_ANDX := by
    rw [hcmd]; exact Env.label_code hK.code_inj _
  have gen : ∀ g : smb_hdr, g.Command = h.Command →
      smb1_get_byte_count K g =
        if (g.Flags2 &&& K.SMBFLG2_UNICODE ≠ 0 ∧ 3 ≤ g.byte_count K) ∨
           (g.Flags2 &&& K.SMBFLG2_UNICODE = 0 ∧ 2 ≤ g.byte_count K)
        then (g.byte_count K : Int) else -(K.EINVAL : Int) := by
    intro g hg
    rw [get_byte_count_of_label (hg ▸ hl)]
    simp only [bc_rule, smb_hdr.unicode]
    by_cases hu : g.Flags2 &&& K.SMBFLG2_UNICODE = 0
    · by_cases hb : 2 ≤ g.byte_count K <;> simp [hu, hb]
    · by_cases hb : 3 ≤ g.byte_count K <;> simp [hu, hb]
  refine ⟨gen h rfl, ?_⟩
  intro f2 hbc hclear hset
  have e1 : smb1_get_byte_count K h = 2 := by
    rw [gen h rfl]; simp [hclear, hbc]
  have hdl : ∀ g : smb_hdr, g.Command = h.Command → smb1_get_data_len K g = 0 := by
    intro g hg
    simp [smb1_get_data_len, le16_to_cpu, hg, hl]
  have hne : Command.SMB_COM_NT_CREATE_ANDX ≠ Command.SMB_COM_WRITE_ANDX := by decide
  have hz : to_u32 0 = 0 := by decide
  generalize hg : ({ h with Flags2 := f2 } : smb_hdr) = g
  have g1 : g.Command = h.Command := by rw [← hg]
  have g2 : g.Flags2 = f2 := by rw [← hg]
  have g3 : g.WordCount = h.WordCount := by rw [← hg]
  have g4 : g.byte_count K = 2 := by rw [← hg]; exact hbc
  have g5 : check_smb1_hdr K g = check_smb1_hdr K h := by rw [← hg]; rfl
  have e2 : smb1_get_byte_count K g = -(K.EINVAL : Int) := by
    rw [gen g g1]; simp [g2, hset, g4]
  refine ⟨e1, e2, ?_⟩
  intro hguard hwc
  have hcs1 : smb1_calc_size K h = K.sizeof_smb_hdr - 4 + 2 + 48 + 2 := by
    unfold smb1_calc_size
    simp only [e1, hwc]
    unfold to_u32 int32
    simp only []
    split_ifs <;> omega
  have hcs2 : smb1_calc_size K g = 4294967296 - K.EINVAL := by
    unfold smb1_calc_size
    simp only [e2]
    have : (-(K.EINVAL : Int) < 0) := by omega
    simp [this, to_u32_neg_errno k3 k4]
  constructor
  · rw [check_message_of_label hK (w := ⟨h, _⟩) hl]
    simp [hguard, wc_rule, hwc, hdl h rfl, hcs1, hz]
  · rw [check_message_of_label hK (w := ⟨g, _⟩) (g1 ▸ hl)]
    have hlt : K.sizeof_smb_hdr - 4 + 2 + 48 + 2 ≠ 4294967296 - K.EINVAL := by omega
    simp [g5, hguard, wc_rule, g3, hwc, hdl g g1, hcs2, hne, hz, hlt]

/-- C7 at a create request with byte count 2, without and with the Unicode
flag 0x8000. -/
theorem nt_create_andx_byte_count_witness :
    smb1_get_byte_count cifsd_env (request 0xA2 0 24 2) = 2 ∧
    smb1_get_byte_count cifsd_env { request 0xA2 0 24 2 with Flags2 := 0x8000 } = -22 ∧
    smb1_check_message cifsd_env
      { request_buf := request 0xA2 0 24 2, rfc1002_length := 37 - 4 + 2 + 48 + 2 } = 0 ∧
    smb1_check_message cifsd_env
      { request_buf := { request 0xA2 0 24 2 with Flags2 := 0x8000 },
        rfc1002_length := 37 - 4 + 2 + 48 + 2 } = 1 :=
  have h := (nt_create_andx_byte_count cifsd_env cifsd_env_WF (request 0xA2 0 24 2)
    (by decide)).2 0x8000 (by decide) (by decide) (by decide)
  have h2 := h.2.2 (by decide) (by decide)
  ⟨h.1, h.2.1, h2.1, h2.2⟩

/-- C8: for a header of a known command whose word count and byte count meet
the rules, `smb1_calc_size` returns
`(sizeof(struct smb_hdr) - 4 + 2) + 2 * wc + bc`, which is at most
`sizeof(struct smb_hdr) - 2 + 510 + 65535` and below 2^31; when the byte-count
rule is violated it returns the error of `smb1_get_byte_count` converted to
unsigned, `2^32 - EINVAL`, a value that no envelope length below 2^24 and no
total of a header that meets its byte-count rule equals. -/
theorem calc_size_total (K : Env) (hK : K.WF) (h : smb_hdr) (c : Command)
    (hcmd : h.Command = K.code c) (hr : h.InRange) :
    (wc_rule c h.WordCount = true → bc_rule c (h.unicode K) (h.byte_count K) = true →
      smb1_calc_size K h = (K.sizeof_smb_hdr - 4 + 2) + 2 * h.WordCount + h.byte_count K ∧
      smb1_calc_size K h ≤ K.sizeof_smb_hdr - 2 + 510 + 65535 ∧
      smb1_calc_size K h < 2147483648) ∧
    (bc_rule c (h.unicode K) (h.byte_count K) = false →
      smb1_get_byte_count K h = -(K.EINVAL : Int) ∧
      smb1_calc_size K h = to_u32 (smb1_get_byte_count K h) ∧
      smb1_calc_size K h = 4294967296 - K.EINVAL ∧
      (∀ len : Nat, len < 16777216 → smb1_calc_size K h ≠ len) ∧
      (∀ (g : smb_hdr) (d : Command), g.Command = K.code d → g.InRange →
        bc_rule d (g.unicode K) (g.byte_count K) = true →
        smb1_calc_size K g ≠ smb1_calc_size K h)) := by
  have k1 := hK.hdr_ge
  have k2 := hK.hdr_lt
  have k3 := hK.EINVAL_pos
  have k4 := hK.EINVAL_le
  have hl : K.label h.Command = some c := by
    rw [hcmd]; exact Env.label_code hK.code_inj _
  have hwc := hr.WordCount
  have hbc : h.byte_count K < 65536 := hr.le16_at _
  have hcs := calc_size_of_label hK hl hwc hbc
  constructor
  · intro _ hb
    rw [hcs, if_pos hb]
    omega
  · intro hb
    have hgb : smb1_get_byte_count K h = -(K.EINVAL : Int) := by
      rw [get_byte_count_of_label hl]; simp [hb]
    have hv : smb1_calc_size K h = 4294967296 - K.EINVAL := by
      rw [hcs]; simp [hb]
    refine ⟨hgb, ?_, hv, ?_, ?_⟩
    · rw [hv, hgb, to_u32_neg_errno k3 k4]
    · intro len hlen; rw [hv]; omega
    · intro g d hg hgr hgb'
      have hlg : K.label g.Command = some d := by
        rw [hg]; exact Env.label_code hK.code_inj _
      have g1 := hgr.WordCount
      have g2 : g.byte_count K < 65536 := hgr.le16_at _
      rw [hv, calc_size_of_label hK hlg g1 g2, if_pos hgb']
      omega

/-- C8 at a CLOSE request with byte count 0, and with byte count 7. -/
theorem calc_size_total_witness :
    (smb1_calc_size cifsd_env (request 0x04 0 3 0) = (37 - 4 + 2) + 2 * 3 + 0) ∧
    (smb1_calc_size cifsd_env (request 0x04 0 3 7) = 4294967296 - 22) :=
  ⟨((calc_size_total cifsd_env cifsd_env_WF (request 0x04 0 3 0) Command.SMB_COM_CLOSE
      (by decide) (request_InRange (by decide) (by decide) (by decide) (by decide))).1
      (by decide) (by decide)).1,
   ((calc_size_total cifsd_env cifsd_env_WF (request 0x04 0 3 7) Command.SMB_COM_CLOSE
      (by decide) (request_InRange (by decide) (by decide) (by decide) (by decide))).2
      (by decide)).2.2.1⟩

/-- C9: for a command of the table, `smb1_req_struct_size` returns the word
count itself when it meets the rule `wc_rule` of the command and `-EINVAL`
otherwise, so the word-count gate of `smb1_check_message` rejects exactly the
mismatches; a CLOSE request with `wc = 3`, `bc = 0` and envelope length
`(sizeof(struct smb_hdr) - 4 + 2) + 6` is accepted, one with `wc = 2` is
rejected. -/
theorem req_struct_size_rule (K : Env) (hK : K.WF) :
    (∀ (c : Command) (h : smb_hdr), h.Command = K.code c → h.WordCount < 256 →
      (smb1_req_struct_size K h =
        if wc_rule c h.WordCount then (h.WordCount : Int) else -(K.EINVAL : Int)) ∧
      (((h.WordCount : Int) ≠ smb1_req_struct_size K h ∨
          smb1_req_struct_size K h = -(K.EOPNOTSUPP : Int)) ↔
        wc_rule c h.WordCount = false) ∧
      (wc_rule c h.WordCount = false → ∀ len : Nat,
        smb1_check_message K { request_buf := h, rfc1002_length := len } = 1)) ∧
    (∀ work : cifsd_work, work.request_buf.Command = K.code Command.SMB_COM_CLOSE →
      check_smb1_hdr K work.request_buf = 0 →
      work.request_buf.WordCount = 3 → work.request_buf.byte_count K = 0 →
      work.rfc1002_length = (K.sizeof_smb_hdr - 4 + 2) + 6 →
      smb1_check_message K work = 0) ∧
    (∀ work : cifsd_work, work.request_buf.Command = K.code Command.SMB_COM_CLOSE →
      work.request_buf.WordCount = 2 →
      smb1_check_message K work = 1) := by
  have k1 := hK.hdr_ge
  have k2 := hK.hdr_lt
  have k3 := hK.EINVAL_pos
  have k5 := hK.EOPNOTSUPP_pos
  have hlab : ∀ (c : Command) (h : smb_hdr), h.Command = K.code c →
      K.label h.Command = some c := by
    intro c h hc; rw [hc]; exact Env.label_code hK.code_inj _
  have hrej : ∀ (c : Command) (w : cifsd_work), w.request_buf.Command = K.code c →
      wc_rule c w.request_buf.WordCount = false → smb1_check_message K w = 1 := by
    intro c w hc hw
    rw [check_message_of_label hK (hlab c _ hc)]
    simp [hw]
  refine ⟨?_, ?_, ?_⟩
  · intro c h hc _
    have e := req_struct_size_of_label (hlab c h hc)
    refine ⟨e, ?_, ?_⟩
    · rw [e]
      by_cases hw : wc_rule c h.WordCount = true
      · simp only [hw, if_true]
        constructor
        · rintro (h1 | h1)
          · exact absurd rfl h1
          · omega
        · intro h1; exact absurd h1 (by simp)
      · have hw2 : wc_rule c h.WordCount = false := by simpa using hw
        simp only [hw2]
        constructor
        · intro _; trivial
        · intro _; left; simp only [Bool.false_eq_true, if_false]; omega
    · intro hw len
      exact hrej c ⟨h, len⟩ hc hw
  · intro work hc hg hwc hbc hlen
    have hl := hlab _ _ hc
    have hdl : smb1_get_data_len K work.request_buf = 0 := by
      simp [smb1_get_data_len, le16_to_cpu, hl]
    have hz : to_u32 0 = 0 := by decide
    have hcs : smb1_calc_size K work.request_buf = K.sizeof_smb_hdr - 4 + 2 + 6 := by
      rw [calc_size_of_label hK hl (by omega) (by omega)]
      simp [bc_rule, hbc, hwc]
    rw [check_message_of_label hK hl]
    simp [hg, wc_rule, hwc, hdl, hz, hcs, hlen]
  · intro work hc hwc
    exact hrej _ work hc (by simp [wc_rule, hwc])

/-- C9 at the two CLOSE requests, with the header values of cifsd. -/
theorem req_struct_size_rule_witness :
    smb1_req_struct_size cifsd_env (request 0x04 0 3 0) = 3 ∧
    smb1_req_struct_size cifsd_env (request 0x04 0 2 0) = -22 ∧
    smb1_check_message cifsd_env
      { request_buf := request 0x04 0 3 0, rfc1002_length := (37 - 4 + 2) + 6 } = 0 ∧
    smb1_check_message cifsd_env
      { request_buf := request 0x04 0 2 0, rfc1002_length := (37 - 4 + 2) + 6 } = 1 :=
  have h := req_struct_size_rule cifsd_env cifsd_env_WF
  ⟨(h.1 Command.SMB_COM_CLOSE (request 0x04 0 3 0) (by decide) (by decide)).1,
   (h.1 Command.SMB_COM_CLOSE (request 0x04 0 2 0) (by decide) (by decide)).1,
   h.2.1 { request_buf := request 0x04 0 3 0, rfc1002_length := (37 - 4 + 2) + 6 }
      (by decide) (by decide) (by decide) (by decide) (by decide),
   h.2.2 { request_buf := request 0x04 0 2 0, rfc1002_length := (37 - 4 + 2) + 6 }
      (by decide) (by decide)⟩

/-! ## The modern negotiator -/

/-- C10: when the six negotiation ids are pairwise different and each
descriptor index is the table position plus one (the values of
`smb_common.h`), then for every configured range and every client list made
of the ids of two entries of `smb2_protos`, in either order, whose descriptor
indices both lie in the range, `cifsd_lookup_smb2_dialect` returns the id of
the entry with the higher table position. -/
theorem lookup_smb2_dialect_prefers_latest (K : Env) (conf : server_conf)
    (hids : ((smb2_protos K).map smb_protocol.prot_id).Nodup)
    (hidx : ∀ (k : Nat) (e : smb_protocol), (smb2_protos K)[k]? = some e →
      e.index = (k : Int) + 1)
    (i j : Nat) (p q : smb_protocol)
    (hi : (smb2_protos K)[i]? = some p) (hj : (smb2_protos K)[j]? = some q)
    (hij : i < j)
    (hp : conf.min_protocol ≤ p.index ∧ p.index ≤ conf.max_protocol)
    (hq : conf.min_protocol ≤ q.index ∧ q.index ≤ conf.max_protocol)
    (cli_dialects : Nat → Nat)
    (hcli : (cli_dialects 0 = p.prot_id ∧ cli_dialects 1 = q.prot_id) ∨
            (cli_dialects 0 = q.prot_id ∧ cli_dialects 1 = p.prot_id)) :
    cifsd_lookup_smb2_dialect K conf cli_dialects 2 = (q.prot_id : Int) := by
  have hjlen : j < (smb2_protos K).length := (List.getElem?_eq_some_iff.mp hj).1
  have hpi := hidx i p hi
  have hqj := hidx j q hj
  have hs : supported_protocol conf (j : Int) = true := by
    simp only [supported_protocol, decide_eq_true_eq]
    omega
  have hmem : ∀ c, c < 2 → cli_dialects c = p.prot_id ∨ cli_dialects c = q.prot_id := by
    intro c hc
    have : c = 0 ∨ c = 1 := by omega
    rcases this with rfl | rfl <;> rcases hcli with ⟨a, b⟩ | ⟨a, b⟩ <;> simp [a, b]
  have hskip := smb2_dialect_loop_skip K conf cli_dialects 2 (j + 1)
    (smb2_protos K).length hjlen
    (by
      intro k e h1 h2 h3 c hc
      have n1 : e.prot_id ≠ p.prot_id := smb2_ids_ne hids h3 hi (by omega)
      have n2 : e.prot_id ≠ q.prot_id := smb2_ids_ne hids h3 hj (by omega)
      rcases hmem c hc with h | h <;> rw [h]
      · exact Ne.symm n1
      · exact Ne.symm n2)
  have hhit := smb2_dialect_scan_hit conf cli_dialects q j hs 2
    (by rcases hcli with ⟨_, b⟩ | ⟨a, _⟩
        · exact ⟨1, by decide, b⟩
        · exact ⟨0, by decide, a⟩)
  unfold cifsd_lookup_smb2_dialect
  rw [hskip]
  simp [smb2_dialect_loop, hj, le16_to_cpu, hhit]

/-- C10 for the entries SMB 2.002 and SMB 3.1.1 with the range 1..6, in both
orders of the client list. -/
theorem lookup_smb2_dialect_prefers_latest_witness :
    cifsd_lookup_smb2_dialect cifsd_env { min_protocol := 1, max_protocol := 6 }
        (fun k => if k = 0 then 0x0311 else 0x0202) 2 = 0x0311 ∧
    cifsd_lookup_smb2_dialect cifsd_env { min_protocol := 1, max_protocol := 6 }
        (fun k => if k = 0 then 0x0202 else 0x0311) 2 = 0x0311 :=
  have hidx : ∀ (k : Nat) (e : smb_protocol), (smb2_protos cifsd_env)[k]? = some e →
      e.index = (k : Int) + 1 := by
    intro k e h
    have hk : k < 6 := (List.getElem?_eq_some_iff.mp h).1
    interval_cases k <;> simp [smb2_protos] at h <;> subst h <;> rfl
  ⟨lookup_smb2_dialect_prefers_latest cifsd_env { min_protocol := 1, max_protocol := 6 }
      (by decide) hidx 0 5 _ _ rfl rfl (by decide) (by decide) (by decide)
      (fun k => if k = 0 then 0x0311 else 0x0202) (Or.inr ⟨rfl, rfl⟩),
   lookup_smb2_dialect_prefers_latest cifsd_env { min_protocol := 1, max_protocol := 6 }
      (by decide) hidx 0 5 _ _ rfl rfl (by decide) (by decide) (by decide)
      (fun k => if k = 0 then 0x0202 else 0x0311) (Or.inl ⟨rfl, rfl⟩)⟩

/-! ## Negotiation, lookup by name, dispatch -/

/-- C11: with the header values of cifsd, the client ids `[0x0202, 0x0210]`
and `min_protocol = max_protocol = 1`, the descriptor index of the SMB 2.002
entry, `cifsd_lookup_smb2_dialect` returns 0x0210, the id of the entry whose
descriptor index 2 lies outside the range: the code tests the table position
of an entry, not its `index` field. -/
theorem lookup_smb2_dialect_outside_range :
    cifsd_lookup_smb2_dialect cifsd_env { min_protocol := 1, max_protocol := 1 }
      (fun k => if k = 0 then 0x0202 else 0x0210) 2 = 0x0210 ∧
    ((smb2_protos cifsd_env)[0]?.map smb_protocol.index = some 1 ∧
      (smb2_protos cifsd_env)[0]?.map smb_protocol.prot_id = some 0x0202) ∧
    (∀ e ∈ smb2_protos cifsd_env, e.prot_id = 0x0210 →
      e.index = 2 ∧ ¬ ((1 : Int) ≤ e.index ∧ e.index ≤ 1)) := by
  decide

/-- C12: with the legacy family compiled in and the range 0..6, a client list
that holds only the empty string makes `cifsd_lookup_smb1_dialect` return the
position 0, and the list `"A"`, `"\x02NT"` makes it return the position 1,
though neither list holds the wire name: `strncmp` compares only as many
characters as the client's string has. -/
theorem lookup_smb1_dialect_accepts_prefix :
    cifsd_env.CONFIG_CIFS_SMB1_SERVER = true ∧
    cifsd_lookup_smb1_dialect cifsd_env { min_protocol := 0, max_protocol := 6 }
      (dialect_bytes [[]]) 1 = some 0 ∧
    cifsd_lookup_smb1_dialect cifsd_env { min_protocol := 0, max_protocol := 6 }
      (dialect_bytes [[0x41], [2, 0x4E, 0x54]]) 6 = some 1 ∧
    [2, 0x4E, 0x54] ++ [0] ≠ c_string "\x02NT LM 0.12" ∧
    cifsd_env.CIFSD_BAD_PROT_ID = 0xFFFF := by
  decide

/-- C13: `get_protocol_idx("NT1")` is -1 with the header values of cifsd: the
search of the modern table returns -1, which differs from `-EINVAL`, so the
legacy table, where `"NT1"` would be found with index `CIFSD_SMB1_PROT`, is
never searched. -/
theorem get_protocol_idx_no_legacy_fallback :
    get_protocol_idx cifsd_env (c_string "NT1") = some (-1) ∧
    __lookup_proto_idx (c_string "NT1") (smb2_protos cifsd_env) 5 = some (-1) ∧
    __lookup_proto_idx (c_string "NT1") (smb1_protos cifsd_env) 0
      = some cifsd_env.CIFSD_SMB1_PROT := by
  decide

/-- C14: with `RFC1002_SESSION_MESSAGE = 0x00`, `is_smb_request` returns true
exactly for the first byte 0x00; it returns false for 0x85 and for every
byte from 0x80 on, which the signed `char` turns into a negative `int`. -/
theorem is_smb_request_iff (K : Env) (hmsg : K.RFC1002_SESSION_MESSAGE = 0)
    (b : Nat) (hb : b < 256) :
    (is_smb_request K b = true ↔ b = 0x00) ∧
    (b = 0x85 → is_smb_request K b = false) ∧
    (0x80 ≤ b → char_to_int b < 0 ∧ is_smb_request K b = false) := by
  have key : is_smb_request K b = true ↔ b = 0 := by
    unfold is_smb_request char_to_int
    simp only [hmsg]
    split_ifs <;> simp <;> omega
  refine ⟨key, ?_, ?_⟩
  · intro h
    cases hv : is_smb_request K b with
    | false => rfl
    | true => rw [key] at hv; omega
  · intro h
    constructor
    · unfold char_to_int; split_ifs <;> omega
    · cases hv : is_smb_request K b with
      | false => rfl
      | true => rw [key] at hv; omega

/-- C14 at the keep-alive byte 0x85. -/
theorem is_smb_request_iff_witness :
    is_smb_request cifsd_env 0x85 = false ∧ char_to_int 0x85 = -123 :=
  have h := is_smb_request_iff cifsd_env (by decide) 0x85 (by decide)
  ⟨h.2.1 rfl, by decide⟩

/-- C15: `check_message` returns the result of the modern checker, whatever
function it is, when the magic equals `SMB2_PROTO_NUMBER`, and the result of
`smb1_check_message` otherwise; a buffer whose magic is neither signature is
rejected with 1 by the legacy header guard. -/
theorem check_message_routes (K : Env) (smb2_check_message : cifsd_work → Int)
    (work : cifsd_work) :
    (work.request_buf.Protocol = K.SMB2_PROTO_NUMBER →
      check_message K smb2_check_message work = smb2_check_message work) ∧
    (work.request_buf.Protocol ≠ K.SMB2_PROTO_NUMBER →
      check_message K smb2_check_message work = smb1_check_message K work) ∧
    (work.request_buf.Protocol ≠ K.SMB2_PROTO_NUMBER →
      work.request_buf.Protocol ≠ K.SMB1_PROTO_NUMBER →
      check_smb1_hdr K work.request_buf = 1 ∧
      check_message K smb2_check_message work = 1) := by
  refine ⟨?_, ?_, ?_⟩
  · intro h; simp [check_message, h]
  · intro h; simp [check_message, h]
  · intro h2 h1
    have hg : check_smb1_hdr K work.request_buf = 1 := by
      simp [check_smb1_hdr, h1]
    exact ⟨hg, by simp [check_message, h2, smb1_check_message, hg]⟩

/-- C15 at a buffer with the magic 0x12345678. -/
theorem check_message_routes_witness :
    check_message cifsd_env (fun _ => 0)
      { request_buf := { blank_request with Protocol := 0x12345678 },
        rfc1002_length := 35 } = 1 :=
  ((check_message_routes cifsd_env (fun _ => 0)
      { request_buf := { blank_request with Protocol := 0x12345678 },
        rfc1002_length := 35 }).2.2 (by decide) (by decide)).2

/-- C16: with the legacy family compiled in, `CIFSD_SMB1_PROT = 0` and the
legacy index within the configured range, for a client list of NUL-free
strings laid out with their terminators over exactly `byte_count` bytes, in
which the wire name `"\x02NT LM 0.12"` occurs and no string before its first
occurrence is empty or a proper prefix of it, `cifsd_lookup_smb1_dialect`
returns the zero-based position of that first occurrence. -/
theorem lookup_smb1_dialect_position (K : Env) (conf : server_conf)
    (hcfg : K.CONFIG_CIFS_SMB1_SERVER = true) (h0 : K.CIFSD_SMB1_PROT = 0)
    (hsup : conf.min_protocol ≤ K.CIFSD_SMB1_PROT ∧ K.CIFSD_SMB1_PROT ≤ conf.max_protocol)
    (pre post : List (List Nat)) (byte_count : Nat)
    (hbc : byte_count = (dialect_bytes (pre ++ nt_lm_012 :: post)).length)
    (hlt : byte_count < 65536)
    (hnul : ∀ s ∈ pre, ∀ c ∈ s, c ≠ 0)
    (hfirst : nt_lm_012 ∉ pre)
    (hpre : ∀ s ∈ pre, ¬ (s <+: nt_lm_012 ∧ s ≠ nt_lm_012)) :
    cifsd_lookup_smb1_dialect K conf (dialect_bytes (pre ++ nt_lm_012 :: post)) byte_count
      = some (pre.length : Int) := by
  have hname : ∀ c ∈ nt_lm_012, c ≠ 0 := by decide
  have hs : supported_protocol conf ((0 : Nat) : Int) = true := by
    simp only [supported_protocol, decide_eq_true_eq]
    omega
  have hge := dialect_bytes_length_ge (pre ++ nt_lm_012 :: post)
  have hpl : pre.length < (dialect_bytes (pre ++ nt_lm_012 :: post)).length + 2 := by
    simp at hge; omega
  have hscan := smb1_dialect_scan_finds K conf (dialect_bytes (pre ++ nt_lm_012 :: post))
    { index := K.CIFSD_SMB1_PROT, name := "\x02NT LM 0.12", prot := "NT1",
      prot_id := K.CIFSD_SMB10_PROT_ID } 0 post hname hs (by rw [h0]; rfl) pre
    ((dialect_bytes (pre ++ nt_lm_012 :: post)).length + 2)
    { bcount := le16_to_cpu byte_count, dialects := 0, smb1_index := 0 }
    hpl rfl (by show ((byte_count : Nat) : Int) = _; rw [hbc]; rfl)
    (by show ((byte_count : Nat) : Int) < 65536; omega)
    (le_refl _)
    (by
      show (0 : Int) + (pre.length : Int) < 65536
      simp at hge; omega)
    (fun s hsm => ⟨hnul s hsm, fun hp => hpre s hsm ⟨hp, fun he => hfirst (he ▸ hsm)⟩⟩)
  unfold cifsd_lookup_smb1_dialect
  simp only [hcfg, if_true, smb1_protos, List.length_singleton, smb1_dialect_loop,
    List.getElem?_cons_zero]
  rw [hscan]
  simp

/-- C16 at the client list `"AB"`, `"\x02NT LM 0.12"`, `"C"`: the result is the
position 1, not the id 0 of the entry. -/
theorem lookup_smb1_dialect_position_witness :
    cifsd_lookup_smb1_dialect cifsd_env { min_protocol := 0, max_protocol := 6 }
      (dialect_bytes ([[0x41, 0x42]] ++ nt_lm_012 :: [[0x43]])) 17 = some 1 ∧
    cifsd_env.CIFSD_SMB10_PROT_ID = 0 :=
  ⟨lookup_smb1_dialect_position cifsd_env { min_protocol := 0, max_protocol := 6 }
      rfl rfl (by decide) [[0x41, 0x42]] [[0x43]] 17 (by decide) (by decide) (by decide)
      (by decide) (by decide), rfl⟩

/-- C17: when no modern descriptor index equals `-EINVAL`, then for a
NUL-free string `s` that is a prefix of the short name of the entry at table
position `j` and of no short name at a higher position, `get_protocol_idx`
returns the `index` field of that entry; and a string longer than a short
name does not match it. -/
theorem get_protocol_idx_newest_prefix_match (K : Env)
    (hidx : ∀ e ∈ smb2_protos K, e.index ≠ -(K.EINVAL : Int))
    (s : List Nat) (hs : ∀ c ∈ s, c ≠ 0) :
    (∀ (j : Nat) (p : smb_protocol), (smb2_protos K)[j]? = some p →
      s <+: p.prot.toList.map Char.toNat →
      (∀ (k : Nat) (q : smb_protocol), j < k → (smb2_protos K)[k]? = some q →
        ¬ s <+: q.prot.toList.map Char.toNat) →
      get_protocol_idx K (s ++ [0]) = some p.index) ∧
    (∀ p : smb_protocol, p.prot.length < s.length →
      strncmp (s ++ [0]) (c_string p.prot) s.length ≠ 0) := by
  have hlen : strlen (s ++ [0]) = some s.length := strlen_append_nul s [] hs
  have hcmp : ∀ q : smb_protocol, strncmp (s ++ [0]) (c_string q.prot) s.length = 0 ↔
      s <+: q.prot.toList.map Char.toNat := by
    intro q
    exact strncmp_eq_zero_iff s hs [0] _
  constructor
  · intro j p hj hpre hnew
    have hjlen : j < (smb2_protos K).length := (List.getElem?_eq_some_iff.mp hj).1
    have hskip := lookup_proto_idx_loop_skip (s ++ [0]) (smb2_protos K) s.length (j + 1)
      (smb2_protos K).length hjlen
      (by
        intro k q h1 h2 h3
        rw [Ne, hcmp q]
        exact hnew k q (by omega) h3)
    have hfound : lookup_proto_idx_loop (s ++ [0]) (smb2_protos K) s.length (j + 1)
        = p.index := by
      simp [lookup_proto_idx_loop, hj, (hcmp p).mpr hpre]
    have hl6 : (smb2_protos K).length = 6 := rfl
    have e1 : __lookup_proto_idx (s ++ [0]) (smb2_protos K)
        (((smb2_protos K).length - 1 : Nat) : Int) = some p.index := by
      unfold __lookup_proto_idx
      rw [hlen]
      simp only [hl6]
      have : ((((6 - 1 : Nat) : Int) + 1).toNat) = 6 := by decide
      rw [this, ← hl6, hskip, hfound]
    have hp : p ∈ smb2_protos K := List.getElem?_mem hj
    unfold get_protocol_idx
    rw [e1]
    simp [hidx p hp]
  · intro p hp
    rw [Ne, hcmp p]
    intro hpre
    have := hpre.length_le
    simp at this
    omega

/-- C17 at `"SMB3"`, with the full short names, the empty string and a
string one character longer than a short name evaluated alongside. -/
theorem get_protocol_idx_newest_prefix_match_witness :
    get_protocol_idx cifsd_env ([0x53, 0x4D, 0x42, 0x33] ++ [0]) = some 6 ∧
    c_string "SMB3" = [0x53, 0x4D, 0x42, 0x33] ++ [0] ∧
    get_protocol_idx cifsd_env (c_string "") = some 6 ∧
    get_protocol_idx cifsd_env (c_string "SMB2_02") = some 1 ∧
    get_protocol_idx cifsd_env (c_string "SMB2_10") = some 2 ∧
    get_protocol_idx cifsd_env (c_string "SMB2_22") = some 3 ∧
    get_protocol_idx cifsd_env (c_string "SMB3_00") = some 4 ∧
    get_protocol_idx cifsd_env (c_string "SMB3_02") = some 5 ∧
    get_protocol_idx cifsd_env (c_string "SMB3_11") = some 6 ∧
    get_protocol_idx cifsd_env (c_string "SMB3_110") = some (-1) :=
  ⟨(get_protocol_idx_newest_prefix_match cifsd_env (by decide) [0x53, 0x4D, 0x42, 0x33]
      (by decide)).1 5 _ rfl (by decide)
      (fun k q hk hq => by
        have h := (List.getElem?_eq_some_iff.mp hq).1
        have h6 : (smb2_protos cifsd_env).length = 6 := rfl
        omega),
   by decide, by decide, by decide, by decide, by decide, by decide, by decide, by decide,
   by decide⟩

/-- C18: for an accepted `SMB_COM_TRANSACTION` or `SMB_COM_TRANSACTION2`
request, `DataOffset + DataCount`, at most 131070 and computed without
overflow, is at most the envelope length; for a command other than
`SMB_COM_WRITE_ANDX` and the two transaction commands `smb1_get_data_len`
returns 0 and the data-region gate does not reject. -/
theorem trans_data_region_within_envelope (K : Env) (hK : K.WF) (work : cifsd_work)
    (hr : work.request_buf.InRange) :
    (work.request_buf.Command = K.code Command.SMB_COM_TRANSACTION →
      smb1_check_message K work = 0 →
      work.request_buf.trans_DataOffset + work.request_buf.trans_DataCount ≤ 131070 ∧
      smb1_get_data_len K work.request_buf =
        (work.request_buf.trans_DataOffset : Int) + (work.request_buf.trans_DataCount : Int) ∧
      work.request_buf.trans_DataOffset + work.request_buf.trans_DataCount
        ≤ work.rfc1002_length) ∧
    (work.request_buf.Command = K.code Command.SMB_COM_TRANSACTION2 →
      smb1_check_message K work = 0 →
      work.request_buf.trans2_DataOffset + work.request_buf.trans2_DataCount ≤ 131070 ∧
      smb1_get_data_len K work.request_buf =
        (work.request_buf.trans2_DataOffset : Int)
          + (work.request_buf.trans2_DataCount : Int) ∧
      work.request_buf.trans2_DataOffset + work.request_buf.trans2_DataCount
        ≤ work.rfc1002_length) ∧
    (work.request_buf.Command ≠ K.code Command.SMB_COM_WRITE_ANDX →
      work.request_buf.Command ≠ K.code Command.SMB_COM_TRANSACTION →
      work.request_buf.Command ≠ K.code Command.SMB_COM_TRANSACTION2 →
      smb1_get_data_len K work.request_buf = 0 ∧
      ¬ (work.rfc1002_length < to_u32 (smb1_get_data_len K work.request_buf))) := by
  have a1 := hr.trans_DataOffset
  have a2 := hr.trans_DataCount
  have a3 := hr.trans2_DataOffset
  have a4 := hr.trans2_DataCount
  have gate : ∀ c : Command, K.label work.request_buf.Command = some c →
      smb1_check_message K work = 0 →
      to_u32 (smb1_get_data_len K work.request_buf) ≤ work.rfc1002_length := by
    intro c hl h0
    rw [check_message_of_label hK hl] at h0
    by_contra hlt
    have hlt2 : work.rfc1002_length < to_u32 (smb1_get_data_len K work.request_buf) := by
      omega
    split_ifs at h0 <;> simp_all
  refine ⟨?_, ?_, ?_⟩
  · intro hc h0
    have hl : K.label work.request_buf.Command = some Command.SMB_COM_TRANSACTION := by
      rw [hc]; exact Env.label_code hK.code_inj _
    have hd : smb1_get_data_len K work.request_buf =
        (work.request_buf.trans_DataOffset : Int) + (work.request_buf.trans_DataCount : Int) := by
      simp only [smb1_get_data_len, le16_to_cpu, hl]
      exact int32_of_small (by omega) (by omega)
    have hg := gate _ hl h0
    rw [hd] at hg
    refine ⟨by omega, hd, ?_⟩
    unfold to_u32 at hg
    omega
  · intro hc h0
    have hl : K.label work.request_buf.Command = some Command.SMB_COM_TRANSACTION2 := by
      rw [hc]; exact Env.label_code hK.code_inj _
    have hd : smb1_get_data_len K work.request_buf =
        (work.request_buf.trans2_DataOffset : Int)
          + (work.request_buf.trans2_DataCount : Int) := by
      simp only [smb1_get_data_len, le16_to_cpu, hl]
      exact int32_of_small (by omega) (by omega)
    have hg := gate _ hl h0
    rw [hd] at hg
    refine ⟨by omega, hd, ?_⟩
    unfold to_u32 at hg
    omega
  · intro h1 h2 h3
    have hd : smb1_get_data_len K work.request_buf = 0 := by
      unfold smb1_get_data_len
      simp only [le16_to_cpu]
      split
      · rename_i heq; exact absurd (Env.label_some heq).symm h1
      · rename_i heq; exact absurd (Env.label_some heq).symm h2
      · rename_i heq; exact absurd (Env.label_some heq).symm h3
      · rfl
    refine ⟨hd, ?_⟩
    rw [hd]
    have : to_u32 0 = 0 := by decide
    omega

/-- C18 at an accepted transaction request with data offset 40, data count 23
and envelope length 63. -/
theorem trans_data_region_within_envelope_witness :
    smb1_check_message cifsd_env
      { request_buf := { request 0x25 0 14 0 with
          trans_DataOffset := 40, trans_DataCount := 23 },
        rfc1002_length := 63 } = 0 ∧
    40 + 23 ≤ 63 :=
  ⟨by decide,
   ((trans_data_region_within_envelope cifsd_env cifsd_env_WF
      { request_buf := { request 0x25 0 14 0 with
          trans_DataOffset := 40, trans_DataCount := 23 },
        rfc1002_length := 63 }
      (by constructor <;> first
            | decide
            | (intro off; show (if off = 37 + 2 * 14 then 0 else 0) < 65536; split_ifs <;> decide))).1
      (by decide) (by decide)).2.2⟩

/-- C19: with `byte_count = 3` and the readable bytes `"A"`, `"BC"`, `"X"`,
each with its NUL, the second pass leaves `bcount = -2` and `dialects` at
offset 5, beyond `byte_count`; the loop goes on, the third pass reads the
string at offset 5, and the scan ends only by leaving the readable memory. -/
theorem lookup_smb1_dialect_reads_past_byte_count :
    smb1_dialect_step cifsd_env { min_protocol := 0, max_protocol := 6 }
      [0x41, 0, 0x42, 0x43, 0, 0x58, 0]
      { index := 0, name := "\x02NT LM 0.12", prot := "NT1", prot_id := 0 } 0
      { bcount := 3, dialects := 0, smb1_index := 0 }
      = .next { bcount := 1, dialects := 2, smb1_index := 1 } ∧
    smb1_dialect_step cifsd_env { min_protocol := 0, max_protocol := 6 }
      [0x41, 0, 0x42, 0x43, 0, 0x58, 0]
      { index := 0, name := "\x02NT LM 0.12", prot := "NT1", prot_id := 0 } 0
      { bcount := 1, dialects := 2, smb1_index := 1 }
      = .next { bcount := -2, dialects := 5, smb1_index := 2 } ∧
    smb1_dialect_step cifsd_env { min_protocol := 0, max_protocol := 6 }
      [0x41, 0, 0x42, 0x43, 0, 0x58, 0]
      { index := 0, name := "\x02NT LM 0.12", prot := "NT1", prot_id := 0 } 0
      { bcount := -2, dialects := 5, smb1_index := 2 }
      = .next { bcount := -4, dialects := 7, smb1_index := 3 } ∧
    smb1_dialect_scan cifsd_env { min_protocol := 0, max_protocol := 6 }
      [0x41, 0, 0x42, 0x43, 0, 0x58, 0]
      { index := 0, name := "\x02NT LM 0.12", prot := "NT1", prot_id := 0 } 0 9
      { bcount := 3, dialects := 0, smb1_index := 0 } = .fault ∧
    cifsd_lookup_smb1_dialect cifsd_env { min_protocol := 0, max_protocol := 6 }
      [0x41, 0, 0x42, 0x43, 0, 0x58, 0] 3 = none := by
  decide

/-- C20: with `EINVAL` different from `EOPNOTSUPP`, `smb1_req_struct_size`
returns `-EOPNOTSUPP` exactly when the command matches no `case` of the
`switch` of `smb1_get_byte_count`; only then does `smb1_get_byte_count` return
the byte count unchecked, and for a request that passes the word-count gate
it applies the byte-count rule of a command of its `switch`. -/
theorem rule_tables_cover_same_commands (K : Env) (hK : K.WF)
    (hne : K.EINVAL ≠ K.EOPNOTSUPP) (h : smb_hdr) :
    (smb1_req_struct_size K h = -(K.EOPNOTSUPP : Int) ↔
      ∀ l ∈ get_byte_count_cases, K.code l ≠ h.Command) ∧
    ((∀ l ∈ get_byte_count_cases, K.code l ≠ h.Command) →
      smb1_get_byte_count K h = (h.byte_count K : Int)) ∧
    (smb1_req_struct_size K h ≠ -(K.EOPNOTSUPP : Int) →
      (h.WordCount : Int) = smb1_req_struct_size K h →
      ∃ c ∈ get_byte_count_cases, K.code c = h.Command ∧
        smb1_get_byte_count K h =
          if bc_rule c (h.unicode K) (h.byte_count K) then (h.byte_count K : Int)
          else -(K.EINVAL : Int)) := by
  have k3 := hK.EINVAL_pos
  have k5 := hK.EOPNOTSUPP_pos
  have hnone : (∀ l ∈ get_byte_count_cases, K.code l ≠ h.Command) ↔
      K.label h.Command = none := by
    rw [Env.label_eq_none]
    constructor
    · intro hh c; exact hh c (Command.mem_get_byte_count_cases c)
    · intro hh c _; exact hh c
  have hiff : smb1_req_struct_size K h = -(K.EOPNOTSUPP : Int) ↔
      K.label h.Command = none := by
    cases hl : K.label h.Command with
    | none => simp [smb1_req_struct_size, le16_to_cpu, hl]
    | some c =>
      rw [req_struct_size_of_label hl]
      simp only [reduceCtorEq, iff_false]
      split_ifs <;> omega
  refine ⟨hiff.trans hnone.symm, ?_, ?_⟩
  · intro hh
    have hl := hnone.mp hh
    have hb : h.WordCount * 2 = 2 * h.WordCount := by omega
    simp [smb1_get_byte_count, le16_to_cpu, hl, smb_hdr.byte_count, hb]
  · intro h1 _
    cases hl : K.label h.Command with
    | none => exact absurd (hiff.mpr hl) h1
    | some c =>
      exact ⟨c, Command.mem_get_byte_count_cases c, Env.label_some hl,
        get_byte_count_of_label hl⟩

/-- C20 at the command code 0xFF. -/
theorem rule_tables_cover_same_commands_witness :
    (smb1_req_struct_size cifsd_env (request 0xFF 0 0 0) = -((95 : Nat) : Int) ↔
      ∀ l ∈ get_byte_count_cases, cifsd_env.code l ≠ (request 0xFF 0 0 0).Command) :=
  (rule_tables_cover_same_commands cifsd_env cifsd_env_WF (by decide)
    (request 0xFF 0 0 0)).1

end Ksmbd
